import Mathlib

/-!
# goadb: device session, shell command line and sync file writer

A shallow embedding of `sync_file_writer.go`, `device.go` and `shell.go`.
Package `wire` (the connection, its tokens and its sentinel errors) is not part
of the sources at hand; the connection is therefore an explicit, scripted
environment that is threaded through every function, in the manner of the
repository's own `MockServer` (`server_mock_test.go`).

The framing functions of package `wire` (`SendMessage`, `readMessage`,
`readHexLength`, `readStatusFailureAsError`) are known only through
`wire/conn_test.go`; they are modelled from the specification on byte streams
that end after their last byte, and checked against the cases of that test file.
-/

namespace Goadb

/-! ## Values -/

/-- A byte slice. The writer never inspects byte values, only lengths and order. -/
abbrev Bytes := List Nat

/-- A Go `time.Time`, as the number of nanoseconds since the zero time
(`time.Time{}`, January 1 of year 1, UTC). -/
structure Time where
  nanos : Int
  deriving DecidableEq, Repr

/-- The method `Time.IsZero`: the receiver is the zero time instant. -/
def Time.IsZero (t : Time) : Bool := t.nanos == 0

/-- The method `Time.Add` for a duration given in nanoseconds. -/
def Time.Add (t : Time) (d : Int) : Time := ⟨t.nanos + d⟩

/-- The variable `MtimeOfClose = time.Time{}` of `device.go`. -/
def MtimeOfClose : Time := ⟨0⟩

/-- A Go `error` value that is not nil. `sentinel` is a package-level error
variable, `other` any error that wraps nothing (its text is kept), and
`wrapf pre inner post` is `fmt.Errorf` with one `%w` verb: the text before the
verb, the wrapped error, the text after it. `incomplete stage got want` is the
spec's `IncompleteMessageError{stage, got, want}`. -/
inductive Error where
  | sentinel (name : String)
  | other (text : String)
  | wrapf (pre : String) (inner : Error) (post : String)
  | incomplete (stage : String) (got want : Nat)
  deriving DecidableEq, Repr

/-- The function `errors.Is`: the target occurs in the chain of wrapped errors. -/
def Error.Is : Error → Error → Bool
  | .wrapf pre inner post, target =>
      decide (Error.wrapf pre inner post = target) || inner.Is target
  | .sentinel name, target => decide (Error.sentinel name = target)
  | .other text, target => decide (Error.other text = target)
  | .incomplete stage got want, target => decide (Error.incomplete stage got want = target)

/-- Modelled from the spec: `wire.ErrAssertion` is declared in package `wire`, not in
the sources at hand; the spec lists `AssertionError` (invalid local precondition)
in its error taxonomy. -/
def ErrAssertion : Error := .sentinel "wire.ErrAssertion"

/-- Modelled from the spec: `wire.ErrParse` is declared in package `wire`, not in the
sources at hand; the spec lists `ParseError` (invalid argument) in its error
taxonomy. -/
def ErrParse : Error := .sentinel "wire.ErrParse"

/-- Modelled from the spec: `wire.SyncMaxChunkSize` is declared in package `wire`, not
in the sources at hand; the spec fixes the maximum chunk size at 64 KiB. -/
def SyncMaxChunkSize : Nat := 64 * 1024

/-- Modelled from the spec: `wire.StatusSuccess` is declared in package `wire`; the
spec calls it the fixed 4-byte success token. -/
def StatusSuccess : String := "OKAY"

/-- Modelled from the spec: `wire.StatusSyncData` is declared in package `wire`; the
spec calls it the fixed 4-byte opcode of a data chunk. -/
def StatusSyncData : String := "DATA"

/-- Modelled from the spec: `wire.StatusSyncDone` is declared in package `wire`; the
spec calls it the fixed 4-byte opcode of the done record. -/
def StatusSyncDone : String := "DONE"

/-! ## The connection -/

/-- An operation performed on a connection, with its arguments. -/
inductive Op where
  | Dial
  | SendMessage (msg : String)
  | ReadStatus (req : String)
  | SetReadDeadline (t : Time)
  | Close
  | SendOctetString (s : String)
  | SendBytes (data : Bytes)
  | SendTime (t : Time)
  | Send (path : String) (perms : Nat) (mtime : Time)
  deriving DecidableEq, Repr

/-- One performed operation and the error it returned (`none` for nil). -/
structure Call where
  op : Op
  err : Option Error
  deriving DecidableEq, Repr

/-- Modelled from the spec: `wire.IConn`, `wire.Conn` and `wire.SyncConn` are declared
in package `wire`, not in the sources at hand. The connection is an environment
scripted like `MockServer`: each operation removes the head of `Errs` and fails
with it when it is an error, `Status` is what a successful status read returns,
and `Trace` records every operation performed, in order, with its outcome.
`readDeadline` is the read deadline currently in force (the zero time: none). -/
structure Conn where
  Errs : List (Option Error)
  Status : String
  Trace : List Call
  readDeadline : Time
  deriving DecidableEq, Repr

/-- The method `getNextErrToReturn` of `MockServer`. -/
def Conn.getNextErrToReturn (s : Conn) : Option Error × Conn :=
  match s.Errs with
  | [] => (none, s)
  | err :: rest => (err, { s with Errs := rest })

/-- Perform one operation that returns only an error: take the scripted outcome
and record the call. -/
def Conn.perform (s : Conn) (op : Op) : Option Error × Conn :=
  let (err, s1) := s.getNextErrToReturn
  (err, { s1 with Trace := s1.Trace ++ [⟨op, err⟩] })

/-- The method `SendOctetString` of the sync connection. -/
def Conn.SendOctetString (s : Conn) (str : String) : Option Error × Conn :=
  s.perform (.SendOctetString str)

/-- The method `SendBytes` of the sync connection. -/
def Conn.SendBytes (s : Conn) (data : Bytes) : Option Error × Conn :=
  s.perform (.SendBytes data)

/-- The method `SendTime` of the sync connection. -/
def Conn.SendTime (s : Conn) (t : Time) : Option Error × Conn :=
  s.perform (.SendTime t)

/-- The method `SendMessage` of the connection. -/
def Conn.SendMessage (s : Conn) (msg : String) : Option Error × Conn :=
  s.perform (.SendMessage msg)

/-- The method `Close` of the connection. -/
def Conn.Close (s : Conn) : Option Error × Conn :=
  s.perform .Close

/-- The method `ReadStatus`: as in `MockServer.ReadStatus`, the empty status with
the scripted error, or `Status` with nil. -/
def Conn.ReadStatus (s : Conn) (req : String) : (String × Option Error) × Conn :=
  match s.perform (.ReadStatus req) with
  | (some err, s1) => (("", some err), s1)
  | (none, s1) => ((s1.Status, none), s1)

/-- The method `SetReadDeadline`: on success the deadline in force is replaced. -/
def Conn.SetReadDeadline (s : Conn) (t : Time) : Option Error × Conn :=
  match s.perform (.SetReadDeadline t) with
  | (some err, s1) => (some err, s1)
  | (none, s1) => (none, { s1 with readDeadline := t })

/-! ## sync_file_writer.go -/

/-- The struct `syncFileWriter`. -/
structure syncFileWriter where
  mtime : Time
  syncConn : Conn
  deriving DecidableEq, Repr

/-- The function `newSyncFileWriter`. -/
def newSyncFileWriter (s : Conn) (mtime : Time) : syncFileWriter :=
  { mtime := mtime, syncConn := s }

/-- The loop of `syncFileWriter.Write`, on the loop variables `buf` and `written`
and the connection. Returns `(n, err)` and the connection afterwards. -/
def syncFileWriter.Write.loop (buf : Bytes) (written : Nat) (conn : Conn) :
    (Nat × Option Error) × Conn :=
  if _h : buf.length > 0 then
    let partialBuf := if buf.length > SyncMaxChunkSize then buf.take SyncMaxChunkSize else buf
    match conn.SendOctetString StatusSyncData with
    | (some err, conn1) => ((written, some err), conn1)
    | (none, conn1) =>
      match conn1.SendBytes partialBuf with
      | (some err, conn2) => ((written, some err), conn2)
      | (none, conn2) =>
        syncFileWriter.Write.loop (buf.drop partialBuf.length) (written + partialBuf.length) conn2
  else
    ((written, none), conn)
termination_by buf.length
decreasing_by
  simp only [List.length_drop]
  split
  · simp only [List.length_take, SyncMaxChunkSize]
    omega
  · omega

/-- The method `syncFileWriter.Write`. -/
def syncFileWriter.Write (w : syncFileWriter) (buf : Bytes) :
    (Nat × Option Error) × syncFileWriter :=
  let (res, conn) := syncFileWriter.Write.loop buf 0 w.syncConn
  (res, { w with syncConn := conn })

/-- The method `syncFileWriter.Close`. `now` is what `time.Now()` returns during the
call. Returns the error and the writer afterwards (its `mtime` may have been set). -/
def syncFileWriter.Close (w : syncFileWriter) (now : Time) : Option Error × syncFileWriter :=
  let mtime := if w.mtime.IsZero then now else w.mtime
  match w.syncConn.SendOctetString StatusSyncDone with
  | (some err, conn1) =>
    (some (.wrapf "error sending done chunk to close stream: " err ""),
      { mtime := mtime, syncConn := conn1 })
  | (none, conn1) =>
    match conn1.SendTime mtime with
    | (some err, conn2) =>
      (some (.wrapf "error writing file modification time: " err ""),
        { mtime := mtime, syncConn := conn2 })
    | (none, conn2) =>
      match conn2.ReadStatus "" with
      | ((_, some err), conn3) =>
        (some (.wrapf "error reading status, should receive 'ID_OKAY': " err ""),
          { mtime := mtime, syncConn := conn3 })
      | ((status, none), conn3) =>
        if status ≠ StatusSuccess then
          (some (.other "error reading status, should receive 'ID_OKAY': %!w(<nil>)"),
            { mtime := mtime, syncConn := conn3 })
        else
          (none, { mtime := mtime, syncConn := conn3 })

/-! ## device.go and shell.go -/

/-- Modelled from the spec: `DeviceDescriptor` is declared outside the sources at hand.
It is kept as the strings its methods return: `getTransportDescriptor()` (the
transport route), `getHostPrefix()` (the host-protocol routing prefix) and
`String()`. -/
structure DeviceDescriptor where
  transportDescriptor : String
  hostPrefix : String
  str : String
  deriving DecidableEq, Repr

/-- The struct `Device`. The server is the scripted environment that connections
are dialed from; durations are in nanoseconds. -/
structure Device where
  server : Conn
  descriptor : DeviceDescriptor
  CmdTimeoutShort : Int
  CmdTimeoutLong : Int
  deriving DecidableEq, Repr

/-- Modelled from the spec: `wrapClientError` is declared outside the sources at hand.
The spec has every low-level error wrapped with the context "doing `<operation>`
on `<device>`"; a nil error stays nil (the success paths of `Forward` and
`RunShellCommand` return its result on a nil error). -/
def wrapClientError (err : Option Error) (c : Device) (operation : String) : Option Error :=
  match err with
  | none => none
  | some e => some (.wrapf ("doing " ++ operation ++ " on " ++ c.descriptor.str ++ ": ") e "")

/-- The method `Dial` of the server, as `MockServer.Dial`: nil and the scripted
error, or the connection. -/
def Conn.Dial (s : Conn) : Option Error × Conn :=
  s.perform .Dial

/-- The function `readStatusWithTimeout`. `now` is what `time.Now()` returns. -/
def readStatusWithTimeout (conn : Conn) (req : String) (timeout : Int) (now : Time) :
    (String × Option Error) × Conn :=
  match conn.SetReadDeadline (now.Add timeout) with
  | (some err, conn1) => (("", some err), conn1)
  | (none, conn1) =>
    match conn1.ReadStatus req with
    | ((resp, some err), conn2) => ((resp, some err), conn2)
    | ((resp, none), conn2) =>
      match conn2.SetReadDeadline ⟨0⟩ with
      | (some err, conn3) => ((resp, some err), conn3)
      | (none, conn3) => ((resp, none), conn3)

/-- The method `Device.dialDevice`. Returns whether a connection is returned
(`true`) or nil (`false`), the error, and the environment afterwards. -/
def Device.dialDevice (c : Device) (timeout : Int) (now : Time) :
    (Bool × Option Error) × Conn :=
  match c.server.Dial with
  | (some err, s1) => ((false, some err), s1)
  | (none, s1) =>
    let req := "host:" ++ c.descriptor.transportDescriptor
    match s1.SendMessage req with
    | (some err, s2) =>
      let (_, s3) := s2.Close
      ((false, some (.wrapf ("error connecting to device '" ++ c.descriptor.str ++ "': ")
        err "")), s3)
    | (none, s2) =>
      match readStatusWithTimeout s2 req timeout now with
      | ((_, some err), s3) =>
        let (_, s4) := s3.Close
        ((false, some err), s4)
      | ((_, none), s3) => ((true, none), s3)

/-- The method `Send` of the sync connection (`wire.SyncConn.Send`, which opens a
file for writing): like every operation of the environment it fails with the
scripted error or succeeds. -/
def Conn.Send (s : Conn) (path : String) (perms : Nat) (mtime : Time) : Option Error × Conn :=
  s.perform (.Send path perms mtime)

/-- The method `Device.NewSyncConn`. `now1` and `now2` are what `time.Now()` returns
at the status read of the routing request and of the `sync:` request. Returns
whether a connection is returned, the error, and the environment afterwards. -/
def Device.NewSyncConn (c : Device) (now1 now2 : Time) : (Bool × Option Error) × Conn :=
  match c.dialDevice c.CmdTimeoutShort now1 with
  | ((_, some err), s1) => ((false, some err), s1)
  | ((_, none), s1) =>
    match s1.SendMessage "sync:" with
    | (some err, s2) => ((false, some err), s2)
    | (none, s2) =>
      match readStatusWithTimeout s2 "sync" c.CmdTimeoutShort now2 with
      | ((_, some err), s3) => ((false, some err), s3)
      | ((_, none), s3) => ((true, none), s3)

/-- The method `Device.Forward`. Returns whether a connection is returned, the
error, and the environment afterwards. -/
def Device.Forward (c : Device) (addr : String) (now1 now2 : Time) :
    (Bool × Option Error) × Conn :=
  match c.dialDevice c.CmdTimeoutShort now1 with
  | ((_, some err), s1) => ((false, wrapClientError (some err) c "forward"), s1)
  | ((_, none), s1) =>
    match s1.SendMessage addr with
    | (some err, s2) =>
      let (_, s3) := s2.Close
      ((false, wrapClientError (some err) c "forward"), s3)
    | (none, s2) =>
      match readStatusWithTimeout s2 addr c.CmdTimeoutShort now2 with
      | ((_, some err), s3) =>
        let (_, s4) := s3.Close
        ((false, wrapClientError (some err) c "forward"), s4)
      | ((_, none), s3) => ((true, wrapClientError none c "forward"), s3)

/-- The request `DoForward` builds from its arguments. -/
def forwardCommand (local_ remote : String) (noRebind : Bool) : String :=
  if noRebind then "host:forward:norebind:" ++ local_ ++ ";" ++ remote
  else "host:forward:" ++ local_ ++ ";" ++ remote

/-- The method `Device.DoForward`. The deferred `conn.Close()` runs on every return
after the dial has succeeded. Returns the error and the environment afterwards. -/
def Device.DoForward (c : Device) (local_ remote : String) (noRebind : Bool)
    (now1 now2 : Time) : Option Error × Conn :=
  match c.dialDevice c.CmdTimeoutShort now1 with
  | ((_, some err), s1) => (wrapClientError (some err) c "forward", s1)
  | ((_, none), s1) =>
    let command := forwardCommand local_ remote noRebind
    match s1.SendMessage command with
    | (some err, s2) =>
      let (_, s3) := s2.Close
      (wrapClientError (some err) c "forward", s3)
    | (none, s2) =>
      match readStatusWithTimeout s2 command c.CmdTimeoutShort now2 with
      | ((_, some err), s3) =>
        let (_, s4) := s3.Close
        (wrapClientError (some err) c "forward", s4)
      | ((_, none), s3) =>
        let (_, s4) := s3.Close
        (none, s4)

/-- The method `Device.OpenFileWriter`. Returns whether a connection and a writer
are returned, the error, and the environment afterwards. -/
def Device.OpenFileWriter (c : Device) (path : String) (perms : Nat) (mtime : Time)
    (now1 now2 : Time) : (Bool × Option Error) × Conn :=
  match c.NewSyncConn now1 now2 with
  | ((_, some err), s1) =>
    ((false, wrapClientError (some err) c ("OpenWrite(" ++ path ++ ")")), s1)
  | ((_, none), s1) =>
    match s1.Send path perms mtime with
    | (some err, s2) =>
      let (_, s3) := s2.Close
      ((false, some err), s3)
    | (none, s2) => ((true, wrapClientError none c ("OpenWrite(" ++ path ++ ")")), s2)

/-- The test `strings.ContainsRune(arg, '"')`. -/
def hasQuote (arg : String) : Bool := arg.toList.contains '"'

/-- The `for i, arg := range args` loop of `prepareCommandLine`, from index `i` on
the elements not yet visited. Returns the error of the early return, if any, and
these elements as the loop leaves them in the caller's slice. -/
def prepareCommandLine.loop (containsWhitespace : String → Bool) (i : Nat) :
    List String → Option Error × List String
  | [] => (none, [])
  | arg :: rest =>
    if hasQuote arg then
      (some (.wrapf "" ErrParse
        (": arg at index " ++ toString i ++ " contains an invalid double quote: " ++ arg)),
        arg :: rest)
    else
      let arg1 := if containsWhitespace arg then "\"" ++ arg ++ "\"" else arg
      let (err, rest1) := prepareCommandLine.loop containsWhitespace (i + 1) rest
      (err, arg1 :: rest1)

/-- The function `prepareCommandLine`. The helpers `isBlank` and
`containsWhitespace` are declared outside the sources at hand and are taken as
parameters. Returns `(cmd, err)` and the caller's `args` slice afterwards. -/
def prepareCommandLine (isBlank containsWhitespace : String → Bool) (cmd : String)
    (args : List String) : (String × Option Error) × List String :=
  if isBlank cmd then
    (("", some (.wrapf "" ErrAssertion ": command cannot be empty")), args)
  else
    match prepareCommandLine.loop containsWhitespace 0 args with
    | (some err, args1) => (("", some err), args1)
    | (none, args1) =>
      if args1.length > 0 then
        ((cmd ++ " " ++ " ".intercalate args1, none), args1)
      else
        ((cmd, none), args1)

/-- The method `Device.RunShellCommand`. `now1` and `now2` are what `time.Now()`
returns at the status read of the routing request and of the shell request.
Returns whether a connection is returned, the error, and the environment. -/
def Device.RunShellCommand (isBlank containsWhitespace : String → Bool) (c : Device)
    (v2 : Bool) (cmd : String) (args : List String) (now1 now2 : Time) :
    (Bool × Option Error) × Conn :=
  match prepareCommandLine isBlank containsWhitespace cmd args with
  | ((_, some err), _) => ((false, wrapClientError (some err) c "RunCommand"), c.server)
  | ((cmd1, none), _) =>
    match c.dialDevice c.CmdTimeoutShort now1 with
    | ((_, some err), s1) => ((false, wrapClientError (some err) c "RunCommand"), s1)
    | ((_, none), s1) =>
      let req := if v2 then "shell,v2:" ++ cmd1 else "shell:" ++ cmd1
      match s1.SendMessage req with
      | (some err, s2) =>
        let (_, s3) := s2.Close
        ((false, wrapClientError (some err) c "RunCommand"), s3)
      | (none, s2) =>
        match readStatusWithTimeout s2 req c.CmdTimeoutShort now2 with
        | ((_, some err), s3) =>
          let (_, s4) := s3.Close
          ((false, wrapClientError (some err) c "RunCommand"), s4)
        | ((_, none), s3) => ((true, wrapClientError none c "RunCommand"), s3)

/-- The error `prepareCommandLine` builds for a double quote in `arg` at index `i`. -/
def quoteError (i : Nat) (arg : String) : Error :=
  .wrapf "" ErrParse
    (": arg at index " ++ toString i ++ " contains an invalid double quote: " ++ arg)

/-- The form in which `prepareCommandLine` leaves an argument that has no double
quote: wrapped in double quotes when it contains whitespace, itself otherwise. -/
def quoted (containsWhitespace : String → Bool) (arg : String) : String :=
  if containsWhitespace arg then "\"" ++ arg ++ "\"" else arg

/-- The messages passed to `SendMessage` among `calls`, in order. -/
def messages (calls : List Call) : List String :=
  calls.filterMap fun c =>
    match c.op with
    | .SendMessage msg => some msg
    | _ => none

/-! ## Package wire: framing and status reads -/

/-- Modelled from the spec: `wire.ErrConnectionReset` is declared in package `wire`, not
in the sources at hand; the spec lists `ConnectionReset` (stream ended with no
frame in progress) in its error taxonomy. -/
def ErrConnectionReset : Error := .sentinel "wire.ErrConnectionReset"

/-- Modelled from the spec: `wire.StatusFailure` is declared in package `wire`; the spec
calls it the fixed 4-byte failure token (`FAIL` in `conn_test.go`). -/
def StatusFailure : String := "FAIL"

/-- Modelled from the spec: `errIncompleteMessage` is declared in package `wire`, not in
the sources at hand; it builds the spec's `IncompleteMessageError{stage, got,
want}`. -/
def wire.errIncompleteMessage (description : String) (actual expected : Nat) : Error :=
  .incomplete description actual expected

/-- Modelled from the spec: the error of a failure status is declared in package
`wire`; the spec has it carry the request description and the decoded message,
and `conn_test.go` fixes its text. -/
def wire.adbServerError (request serverMsg : String) : Error :=
  .other ("AdbError: request " ++ request ++ ", server error: " ++ serverMsg)

/-- Modelled from the spec: reading exactly `n` bytes from a stream that ends after
its last byte: the bytes read, fewer than `n` when the stream ends first, and the
bytes left unread. -/
def wire.readFull (r : List Char) (n : Nat) : List Char × List Char :=
  (r.take n, r.drop n)

/-- Modelled from the spec: the value of one hexadecimal digit, from its byte code:
48 to 57 are `0` to `9`, 97 to 102 are `a` to `f`, 65 to 70 are `A` to `F`. -/
def wire.hexValue (c : Char) : Option Nat :=
  let code := c.toNat
  if 48 ≤ code ∧ code ≤ 57 then some (code - 48)
  else if 97 ≤ code ∧ code ≤ 102 then some (code - 87)
  else if 65 ≤ code ∧ code ≤ 70 then some (code - 55)
  else none

/-- Modelled from the spec: "parses as hexadecimal length": the number the digits
denote, most significant first, or `none` when one of them is not a hexadecimal
digit. -/
def wire.parseHex (digits : List Char) : Option Nat :=
  digits.foldlM (fun acc c => (wire.hexValue c).map fun v => acc * 16 + v) 0

/-- Modelled from the spec: the lowercase hexadecimal digit of a value below 16. -/
def wire.hexDigit (n : Nat) : Char :=
  if n < 10 then Char.ofNat (48 + n) else Char.ofNat (87 + n)

/-- A lowercase hexadecimal digit: byte code 48 to 57 (`0` to `9`) or 97 to 102
(`a` to `f`). -/
def wire.isLowerHex (c : Char) : Bool :=
  decide ((48 ≤ c.toNat ∧ c.toNat ≤ 57) ∨ (97 ≤ c.toNat ∧ c.toNat ≤ 102))

/-- Modelled from the spec: "the 4-hex-digit lowercase length header (exactly 4
characters)" of a length that fits that width (`n ≤ 0xFFFF`). -/
def wire.hexLength (n : Nat) : List Char :=
  [wire.hexDigit (n / 4096 % 16), wire.hexDigit (n / 256 % 16), wire.hexDigit (n / 16 % 16),
    wire.hexDigit (n % 16)]

/-- Modelled from the spec: `SendMessage` of the Framing Layer (`wire.Conn`, not in the
sources at hand) on a connection that has `out` written to it and whose writes
do not fail, as the buffer of `conn_test.go`: it "writes the 4-hex-digit
lowercase length header ... followed by the raw payload in one logical write".
The "payload length must fit in that width": a payload that does not is refused
as an invalid local precondition and nothing is written. -/
def wire.SendMessage (out : List Char) (payload : List Char) : Option Error × List Char :=
  if payload.length ≤ 0xFFFF then
    (none, out ++ (wire.hexLength payload.length ++ payload))
  else
    (some ErrAssertion, out)

/-- Modelled from the spec: `readHexLength` is declared in package `wire`, not in the
sources at hand: it "reads exactly 4 bytes, parses as hexadecimal length"; "if
fewer than 4 bytes are available before the stream ends, fails with
`IncompleteMessageError{stage:"length", got, want:4}`"; "a stream that ends with
zero bytes available for the length read is reported as `ErrConnectionReset`".
The spec does not name the error for 4 bytes that are not hexadecimal. Returns
`(length, err)` and the bytes left unread. -/
def wire.readHexLength (r : List Char) : (Nat × Option Error) × List Char :=
  let (lengthHex, rest) := wire.readFull r 4
  if lengthHex.length = 0 then
    ((0, some ErrConnectionReset), rest)
  else if lengthHex.length < 4 then
    ((0, some (wire.errIncompleteMessage "length" lengthHex.length 4)), rest)
  else
    match wire.parseHex lengthHex with
    | none => ((0, some ErrParse), rest)
    | some length => ((length, none), rest)

/-- Modelled from the spec: `readMessage` is declared in package `wire`, not in the
sources at hand: after the length `L` it "reads exactly `L` bytes; if the stream
ends before `L` bytes arrive, fails with `IncompleteMessageError{stage:"message
data", got, want:L}` and still returns the partial bytes read so far". Returns
`(msg, err)`, `none` being the nil slice, and the bytes left unread. -/
def wire.readMessage (r : List Char) : (Option (List Char) × Option Error) × List Char :=
  match wire.readHexLength r with
  | ((_, some err), rest) => ((none, some err), rest)
  | ((length, none), rest) =>
    let (data, rest1) := wire.readFull rest length
    if data.length < length then
      ((some data, some (wire.errIncompleteMessage "message data" data.length length)), rest1)
    else
      ((some data, none), rest1)

/-- Modelled from the spec: `readStatusFailureAsError` is declared in package `wire`, not
in the sources at hand: it "reads exactly 4 bytes as the status word. On the
success token, returns success with no further read. On the failure token, reads
one length-prefixed message ... and fails with a structured error carrying the
request description and the decoded message; if that follow-up read itself
fails ... the error states `server returned error for <request>, but couldn't
read the error message`". A status word cut short is reported as in
`TestReadIncompleteStatus`; a word that is not the failure token is returned
with a nil error. Returns `(status, err)` and the bytes left unread. -/
def wire.readStatusFailureAsError (r : List Char) (req : String) :
    (String × Option Error) × List Char :=
  let (status, rest) := wire.readFull r 4
  if status.length < 4 then
    (("", some (.wrapf ("error reading status for " ++ req ++ ": ")
      (wire.errIncompleteMessage "" status.length 4) "")), rest)
  else if String.mk status = StatusFailure then
    match wire.readMessage rest with
    | ((_, some err), rest1) =>
      (("", some (.wrapf
        ("server returned error for " ++ req ++ ", but couldn't read the error message: ")
        err "")), rest1)
    | ((msg, none), rest1) =>
      (("", some (wire.adbServerError req (String.mk (msg.getD [])))), rest1)
  else
    ((String.mk status, none), rest)

/-! ## Device.State -/

/-- The texts of the errors whose `Error()` text is fixed in package `wire`, not in
the sources at hand: of a sentinel error, by its name, and of an
`errIncompleteMessage`, by its stage and counts. They are taken as parameters. -/
structure ErrorTexts where
  sentinel : String → String
  incomplete : String → Nat → Nat → String

set_option linter.dupNamespace false in
/-- The method `Error()` of an error value: its text. An error built by
`fmt.Errorf` with `%w` has the text of the wrapped error between the text before
the verb and the text after it. -/
def Error.Error (texts : ErrorTexts) : Error → String
  | .sentinel name => texts.sentinel name
  | .other text => text
  | .wrapf pre inner post => pre ++ inner.Error texts ++ post
  | .incomplete stage got want => texts.incomplete stage got want

/-- The function `strings.Contains`: `substr` occurs in `s`, that is, it is a prefix
of the rest of `s` from some position on. -/
def strings.Contains (s substr : String) : Bool :=
  s.toList.tails.any fun t => substr.toList.isPrefixOf t

/-- The declarations that `Device.State` and `Device.getAttribute` use and that are
not in the sources at hand, taken as parameters: the type `DeviceState` with its
constants `StateInvalid` and `StateUnauthorized`, the functions
`parseDeviceState` and `roundTripSingleResponse` (the latter on the server, with
the response, the error and the server afterwards), and the error texts. -/
structure StateEnv (DeviceState : Type) where
  StateInvalid : DeviceState
  StateUnauthorized : DeviceState
  parseDeviceState : String → DeviceState × Option Error
  roundTripSingleResponse : Conn → String → (String × Option Error) × Conn
  texts : ErrorTexts

/-- The method `Device.getAttribute`. Returns `(attr, err)` and the server
afterwards. -/
def Device.getAttribute {DeviceState : Type} (env : StateEnv DeviceState) (c : Device)
    (attr : String) : (String × Option Error) × Conn :=
  match env.roundTripSingleResponse c.server (c.descriptor.hostPrefix ++ ":" ++ attr) with
  | ((_, some err), s1) => (("", some err), s1)
  | ((resp, none), s1) => ((resp, none), s1)

/-- The method `Device.State`. Returns `(state, err)` and the server afterwards. -/
def Device.State {DeviceState : Type} (env : StateEnv DeviceState) (c : Device) :
    (DeviceState × Option Error) × Conn :=
  match c.getAttribute env "get-state" with
  | ((_, some err), s1) =>
    if strings.Contains (err.Error env.texts) "unauthorized" then
      ((env.StateUnauthorized, none), s1)
    else
      ((env.StateInvalid, wrapClientError (some err) c "State"), s1)
  | ((attr, none), s1) =>
    let (state, err) := env.parseDeviceState attr
    ((state, wrapClientError err c "State"), s1)

/-- A sample of the declarations `Device.State` needs, with strings for states: a
round trip that sends the request and answers `resp` unless the send fails, and
a parser that knows the answers `device` and `offline`. -/
def sampleStateEnv (resp : String) : StateEnv String :=
  { StateInvalid := "StateInvalid"
    StateUnauthorized := "StateUnauthorized"
    parseDeviceState := fun attr =>
      if attr = "device" then ("StateOnline", none)
      else if attr = "offline" then ("StateOffline", none)
      else ("StateInvalid", some (.wrapf "" ErrParse (": invalid device state: " ++ attr)))
    roundTripSingleResponse := fun s req =>
      match s.SendMessage req with
      | (some err, s1) => (("", some err), s1)
      | (none, s1) => ((resp, none), s1)
    texts := { sentinel := fun name => name, incomplete := fun stage _ _ => stage } }

/-- The error `err` is what `wrapClientError` returns for some error and some
operation on the device `c`. -/
def wrappedForClient (c : Device) (err : Error) : Prop :=
  ∃ e operation, wrapClientError (some e) c operation = some err

/-- The number of `Close` calls among `calls`. -/
def closes (calls : List Call) : Nat :=
  calls.countP fun c => decide (c.op = .Close)

/-- The calls of a run of successfully sent data chunks: for each chunk the data
token, then the payload. -/
def dataCalls (chunks : List Bytes) : List Call :=
  chunks.flatMap fun c => [⟨.SendOctetString StatusSyncData, none⟩, ⟨.SendBytes c, none⟩]

/-- The calls a run added to the trace that held `before` calls at its start. -/
def newCalls (before : Conn) (after : Conn) : List Call :=
  after.Trace.drop before.Trace.length

/-- The payloads of the data chunks among `calls`: the arguments of the `SendBytes`
calls that succeeded, in order. -/
def payloads (calls : List Call) : List Bytes :=
  calls.filterMap fun c =>
    match c.op, c.err with
    | .SendBytes data, none => some data
    | _, _ => none

/-- A connection on which nothing has happened yet and nothing is scripted to fail. -/
def quietConn : Conn := { Errs := [], Status := StatusSuccess, Trace := [], readDeadline := ⟨0⟩ }

/-- A device reached through `quietConn`, with 5 ns and 10 ns timeouts. -/
def sampleDevice : Device :=
  { server := quietConn
    descriptor := { transportDescriptor := "transport-any", hostPrefix := "host", str := "any" }
    CmdTimeoutShort := 5
    CmdTimeoutLong := 10 }

/-- The device `sampleDevice` on a connection with the failure script `errs`. -/
def scriptedDevice (errs : List (Option Error)) : Device :=
  { sampleDevice with server := { quietConn with Errs := errs } }

/-! ## Lemmas on the connection -/

theorem perform_trace (s : Conn) (op : Op) :
    (s.perform op).2.Trace = s.Trace ++ [⟨op, (s.perform op).1⟩] := by
  unfold Conn.perform Conn.getNextErrToReturn
  cases s.Errs <;> rfl

theorem perform_status (s : Conn) (op : Op) : (s.perform op).2.Status = s.Status := by
  unfold Conn.perform Conn.getNextErrToReturn
  cases s.Errs <;> rfl

theorem perform_deadline (s : Conn) (op : Op) :
    (s.perform op).2.readDeadline = s.readDeadline := by
  unfold Conn.perform Conn.getNextErrToReturn
  cases s.Errs <;> rfl

theorem newCalls_append (a b : Conn) (xs : List Call) (h : b.Trace = a.Trace ++ xs) :
    newCalls a b = xs := by
  simp [newCalls, h]

theorem dataCalls_cons (c : Bytes) (chunks : List Bytes) :
    dataCalls (c :: chunks) =
      [⟨.SendOctetString StatusSyncData, none⟩, ⟨.SendBytes c, none⟩] ++ dataCalls chunks := by
  simp [dataCalls]

/-- The slice `partialBuf` of one iteration is the first `min len(buf) max` bytes. -/
theorem partialBuf_eq (buf : Bytes) :
    (if buf.length > SyncMaxChunkSize then buf.take SyncMaxChunkSize else buf) =
      buf.take (min buf.length SyncMaxChunkSize) := by
  split
  · rw [Nat.min_eq_right (by omega)]
  · rw [Nat.min_eq_left (by omega), List.take_length]

/-- What the loop of `Write` does, on every path: it sends a run of whole chunks
and counts their bytes; it then either has consumed the buffer and returns nil,
or stops at the first failing send, having sent only full-size chunks. -/
theorem Write_loop_spec (buf : Bytes) (written : Nat) (conn : Conn) :
    ∃ (chunks : List Bytes) (tail : List Call),
      (syncFileWriter.Write.loop buf written conn).2.Trace
          = conn.Trace ++ (dataCalls chunks ++ tail) ∧
      (∀ c ∈ chunks, 0 < c.length ∧ c.length ≤ SyncMaxChunkSize) ∧
      (syncFileWriter.Write.loop buf written conn).1.1 = written + chunks.flatten.length ∧
      (((syncFileWriter.Write.loop buf written conn).1.2 = none ∧ tail = [] ∧
          chunks.flatten = buf) ∨
       (∃ err, (syncFileWriter.Write.loop buf written conn).1.2 = some err ∧
          (∀ c ∈ chunks, c.length = SyncMaxChunkSize) ∧
          chunks.flatten = buf.take chunks.flatten.length ∧
          chunks.flatten.length < buf.length ∧
          (tail = [⟨.SendOctetString StatusSyncData, some err⟩] ∨
           tail = [⟨.SendOctetString StatusSyncData, none⟩,
                   ⟨.SendBytes ((buf.drop chunks.flatten.length).take SyncMaxChunkSize),
                     some err⟩]))) := by
  generalize hn : buf.length = n
  induction n using Nat.strong_induction_on generalizing buf written conn with
  | _ n ih =>
    subst hn
    rw [syncFileWriter.Write.loop]
    by_cases hpos : buf.length > 0
    · simp only [hpos, ↓reduceDIte]
      rw [partialBuf_eq]
      have t1 := perform_trace conn (.SendOctetString StatusSyncData)
      rcases h1 : conn.SendOctetString StatusSyncData with ⟨e1, c1⟩
      simp only [Conn.SendOctetString] at h1
      rw [h1] at t1
      dsimp only at t1
      cases e1 with
      | some err =>
        refine ⟨[], [⟨.SendOctetString StatusSyncData, some err⟩], ?_, ?_, ?_, Or.inr ⟨err, ?_⟩⟩
        · simpa [dataCalls] using t1
        · simp
        · simp
        · simp; omega
      | none =>
        dsimp only
        generalize hp : buf.take (min buf.length SyncMaxChunkSize) = pb
        have hlen : pb.length = min buf.length SyncMaxChunkSize := by
          rw [← hp, List.length_take]; omega
        have hmax : 0 < SyncMaxChunkSize := by simp [SyncMaxChunkSize]
        have hpb : pb = buf.take pb.length := by rw [hlen, hp]
        have t2 := perform_trace c1 (.SendBytes pb)
        rcases h2 : c1.SendBytes pb with ⟨e2, c2⟩
        simp only [Conn.SendBytes] at h2
        rw [h2] at t2
        dsimp only at t2
        cases e2 with
        | some err =>
          refine ⟨[], [⟨.SendOctetString StatusSyncData, none⟩, ⟨.SendBytes pb, some err⟩],
            ?_, ?_, ?_, Or.inr ⟨err, ?_⟩⟩
          · simp [dataCalls, t2, t1]
          · simp
          · simp
          · refine ⟨rfl, by simp, by simp, by simpa using hpos, Or.inr ?_⟩
            simp only [List.flatten_nil, List.length_nil, List.drop_zero]
            rw [← hp]
            simp [List.take_take, Nat.min_comm]
        | none =>
          dsimp only
          obtain ⟨chunks, tail, htr, hch, hcnt, hres⟩ := ih (buf.drop pb.length).length
            (by simp only [List.length_drop]; omega) (buf.drop pb.length)
            (written + pb.length) c2 rfl
          have hsplit : pb ++ buf.drop pb.length = buf := by
            have h := List.take_append_drop pb.length buf
            rwa [← hpb] at h
          refine ⟨pb :: chunks, tail, ?_, ?_, ?_, ?_⟩
          · rw [htr, t2, t1, dataCalls_cons]
            simp only [List.append_assoc, List.cons_append, List.nil_append]
          · intro c hc
            rcases List.mem_cons.mp hc with rfl | hc
            · exact ⟨by omega, by omega⟩
            · exact hch c hc
          · rw [hcnt]
            simp only [List.flatten_cons, List.length_append]
            omega
          · rcases hres with ⟨hnone, htail, hjoin⟩ | ⟨err, herr, hfull, htake, hlt, htl⟩
            · exact Or.inl ⟨hnone, htail, by rw [List.flatten_cons, hjoin, hsplit]⟩
            · have hrest : 0 < (buf.drop pb.length).length := by omega
              have hpbmax : pb.length = SyncMaxChunkSize := by
                simp only [List.length_drop] at hrest
                omega
              refine Or.inr ⟨err, herr, ?_, ?_, ?_, ?_⟩
              · intro c hc
                rcases List.mem_cons.mp hc with rfl | hc
                · exact hpbmax
                · exact hfull c hc
              · simp only [List.flatten_cons, List.length_append]
                rw [List.take_add, ← hpb, ← htake]
              · simp only [List.flatten_cons, List.length_append, List.length_drop] at hlt ⊢
                omega
              · simp only [List.flatten_cons, List.length_append]
                rw [← List.drop_drop]
                exact htl
    · simp only [hpos, ↓reduceDIte]
      have hnil : buf = [] := List.length_eq_zero.mp (by omega)
      refine ⟨[], [], ?_, ?_, ?_, Or.inl ⟨trivial, rfl, ?_⟩⟩
      · simp [dataCalls]
      · simp
      · simp
      · simp [hnil]

theorem payloads_dataCalls (chunks : List Bytes) : payloads (dataCalls chunks) = chunks := by
  induction chunks with
  | nil => rfl
  | cons c cs ih =>
    rw [dataCalls_cons]
    simp only [payloads, List.cons_append, List.nil_append, List.filterMap_cons] at ih ⊢
    rw [ih]

/-- With nothing scripted to fail, an operation succeeds and nothing is scripted
afterwards either. -/
theorem perform_quiet (s : Conn) (op : Op) (h : s.Errs = []) :
    (s.perform op).1 = none ∧ (s.perform op).2.Errs = [] := by
  unfold Conn.perform Conn.getNextErrToReturn
  rw [h]
  exact ⟨rfl, h⟩

/-- With nothing scripted to fail, the loop of `Write` consumes the whole buffer. -/
theorem Write_loop_quiet (buf : Bytes) (written : Nat) (conn : Conn) (h : conn.Errs = []) :
    (syncFileWriter.Write.loop buf written conn).1 = (written + buf.length, none) := by
  generalize hn : buf.length = n
  induction n using Nat.strong_induction_on generalizing buf written conn with
  | _ n ih =>
    subst hn
    rw [syncFileWriter.Write.loop]
    by_cases hpos : buf.length > 0
    · simp only [hpos, ↓reduceDIte]
      rw [partialBuf_eq]
      have q1 := perform_quiet conn (.SendOctetString StatusSyncData) h
      rcases h1 : conn.SendOctetString StatusSyncData with ⟨e1, c1⟩
      simp only [Conn.SendOctetString] at h1
      rw [h1] at q1
      dsimp only at q1
      obtain ⟨rfl, hc1⟩ := q1
      dsimp only
      have q2 := perform_quiet c1
        (.SendBytes (buf.take (min buf.length SyncMaxChunkSize))) hc1
      rcases h2 : c1.SendBytes (buf.take (min buf.length SyncMaxChunkSize)) with ⟨e2, c2⟩
      simp only [Conn.SendBytes] at h2
      rw [h2] at q2
      dsimp only at q2
      obtain ⟨rfl, hc2⟩ := q2
      dsimp only
      have hmax : 0 < SyncMaxChunkSize := by simp [SyncMaxChunkSize]
      rw [ih _ (by simp only [List.length_drop, List.length_take]; omega) _ _ c2 hc2 rfl]
      simp only [List.length_drop, List.length_take]
      apply Prod.ext
      · simp only; omega
      · rfl
    · simp only [hpos, ↓reduceDIte]
      have : buf.length = 0 := by omega
      rw [this]; rfl

/-- A buffer of at most one chunk takes one iteration: token, payload, return. -/
theorem Write_loop_small (buf : Bytes) (written : Nat) (conn : Conn)
    (hpos : 0 < buf.length) (hle : buf.length ≤ SyncMaxChunkSize) :
    syncFileWriter.Write.loop buf written conn =
      match conn.SendOctetString StatusSyncData with
      | (some err, conn1) => ((written, some err), conn1)
      | (none, conn1) =>
        match conn1.SendBytes buf with
        | (some err, conn2) => ((written, some err), conn2)
        | (none, conn2) => ((written + buf.length, none), conn2) := by
  rw [syncFileWriter.Write.loop]
  have hgt : ¬ buf.length > SyncMaxChunkSize := by omega
  simp only [gt_iff_lt, hpos, ↓reduceDIte, hgt, ↓reduceIte, List.drop_length]
  rcases conn.SendOctetString StatusSyncData with ⟨e1, c1⟩
  cases e1 with
  | some err => rfl
  | none =>
    dsimp only
    rcases c1.SendBytes buf with ⟨e2, c2⟩
    cases e2 with
    | some err => rfl
    | none =>
      dsimp only
      rw [syncFileWriter.Write.loop]
      simp

/-! ## Write -/

/-- `Write` is its loop started at `written = 0` on the writer's connection. -/
theorem Write_eq (w : syncFileWriter) (buf : Bytes) :
    w.Write buf = ((syncFileWriter.Write.loop buf 0 w.syncConn).1,
      { w with syncConn := (syncFileWriter.Write.loop buf 0 w.syncConn).2 }) := rfl

/-- When every send that `Write(buf)` performs succeeds, the calls it adds are a
run of data chunks, none of them empty, that partition `buf`. -/
theorem Write_ok_chunks (w : syncFileWriter) (buf : Bytes)
    (hok : ∀ c ∈ newCalls w.syncConn (w.Write buf).2.syncConn, c.err = none) :
    ∃ chunks : List Bytes,
      (w.Write buf).2.syncConn.Trace = w.syncConn.Trace ++ dataCalls chunks ∧
      (∀ c ∈ chunks, 0 < c.length ∧ c.length ≤ SyncMaxChunkSize) ∧
      chunks.flatten = buf ∧
      (w.Write buf).1 = (chunks.flatten.length, none) := by
  obtain ⟨chunks, tail, htr, hch, hcnt, hres⟩ := Write_loop_spec buf 0 w.syncConn
  rw [Write_eq] at hok ⊢
  dsimp only at hok ⊢
  rw [newCalls_append _ _ _ htr] at hok
  rcases hres with ⟨hnone, htail, hjoin⟩ | ⟨err, _, _, _, _, htl⟩
  · subst htail
    refine ⟨chunks, by simpa using htr, hch, hjoin, ?_⟩
    apply Prod.ext
    · simp [hcnt]
    · exact hnone
  · exfalso
    rcases htl with rfl | rfl
    · have := hok ⟨.SendOctetString StatusSyncData, some err⟩ (by simp)
      simp at this
    · have := hok ⟨.SendBytes ((buf.drop chunks.flatten.length).take SyncMaxChunkSize),
        some err⟩ (by simp)
      simp at this

/-- C1: when every send that `Write(buf)` performs succeeds, it returns
`(len(buf), nil)`; the calls it adds to the connection are exactly a run of data
chunks (token, then payload), every payload is at most `SyncMaxChunkSize` long,
and the payloads concatenated in send order are `buf`, so their lengths add up to
`len(buf)`. `Write` is a total function: its loop terminates for every buffer. -/
theorem Write_all_sends_succeed (w : syncFileWriter) (buf : Bytes)
    (hok : ∀ c ∈ newCalls w.syncConn (w.Write buf).2.syncConn, c.err = none) :
    (w.Write buf).1 = (buf.length, none) ∧
    ∃ chunks : List Bytes,
      (w.Write buf).2.syncConn.Trace = w.syncConn.Trace ++ dataCalls chunks ∧
      payloads (newCalls w.syncConn (w.Write buf).2.syncConn) = chunks ∧
      (∀ c ∈ chunks, c.length ≤ SyncMaxChunkSize) ∧
      chunks.flatten = buf ∧
      (chunks.map List.length).sum = buf.length := by
  obtain ⟨chunks, htr, hch, hjoin, hret⟩ := Write_ok_chunks w buf hok
  refine ⟨by rw [hret, hjoin], chunks, htr, ?_, fun c hc => (hch c hc).2, hjoin, ?_⟩
  · rw [newCalls_append _ _ _ htr, payloads_dataCalls]
  · rw [← List.length_flatten, hjoin]

theorem Write_all_sends_succeed_witness :
    (∀ c ∈ newCalls quietConn ((newSyncFileWriter quietConn ⟨0⟩).Write [1, 2, 3]).2.syncConn,
        c.err = none) ∧
    ((newSyncFileWriter quietConn ⟨0⟩).Write [1, 2, 3]).1 = (3, none) :=
  have h : ∀ c ∈ newCalls quietConn ((newSyncFileWriter quietConn ⟨0⟩).Write [1, 2, 3]).2.syncConn,
      c.err = none := by
    simp [newSyncFileWriter, syncFileWriter.Write, syncFileWriter.Write.loop, quietConn,
      Conn.SendOctetString, Conn.SendBytes, Conn.perform, Conn.getNextErrToReturn, newCalls,
      SyncMaxChunkSize]
  ⟨h, (Write_all_sends_succeed (newSyncFileWriter quietConn ⟨0⟩) [1, 2, 3] h).1⟩

/-- C2 (as stated, refuted): a `Write` of the empty buffer on a connection where
nothing fails performs no operation, so it emits no data chunk at all. -/
theorem Write_empty_emits_no_chunk :
    newCalls quietConn ((newSyncFileWriter quietConn ⟨0⟩).Write []).2.syncConn = [] ∧
    ¬ 1 ≤ (payloads
      (newCalls quietConn ((newSyncFileWriter quietConn ⟨0⟩).Write []).2.syncConn)).length := by
  simp [newSyncFileWriter, syncFileWriter.Write, syncFileWriter.Write.loop, quietConn, newCalls,
    payloads]

/-- C2 (amended): a `Write` of the empty buffer performs no operation and returns
`(0, nil)`; a `Write` of a non-empty buffer whose sends all succeed emits at least
one data chunk; and a `Write` of exactly `SyncMaxChunkSize` bytes whose sends all
succeed emits exactly one chunk, carrying the whole buffer. -/
theorem Write_chunk_count (w : syncFileWriter) (buf : Bytes)
    (hok : ∀ c ∈ newCalls w.syncConn (w.Write buf).2.syncConn, c.err = none) :
    (buf = [] → w.Write buf = ((0, none), w)) ∧
    (buf ≠ [] → 1 ≤ (payloads (newCalls w.syncConn (w.Write buf).2.syncConn)).length) ∧
    (buf.length = SyncMaxChunkSize →
      payloads (newCalls w.syncConn (w.Write buf).2.syncConn) = [buf]) := by
  refine ⟨?_, ?_, ?_⟩
  · rintro rfl
    rw [Write_eq, syncFileWriter.Write.loop]
    simp
  · intro hne
    obtain ⟨chunks, htr, _, hjoin, _⟩ := Write_ok_chunks w buf hok
    rw [newCalls_append _ _ _ htr, payloads_dataCalls]
    cases chunks with
    | nil => exact absurd hjoin.symm (by simpa using hne)
    | cons c cs => simp
  · intro hlen
    have hmax : 0 < SyncMaxChunkSize := by simp [SyncMaxChunkSize]
    have hsmall := Write_loop_small buf 0 w.syncConn (by omega) (by omega)
    rw [Write_eq] at hok ⊢
    dsimp only at hok ⊢
    rw [hsmall] at hok ⊢
    obtain ⟨mtime, errs, status, trace, deadline⟩ := w
    rcases errs with _ | ⟨_ | e1, _ | ⟨_ | e2, rest⟩⟩ <;>
      simp [Conn.SendOctetString, Conn.SendBytes, Conn.perform, Conn.getNextErrToReturn,
        newCalls, payloads] at hok ⊢

theorem Write_chunk_count_witness :
    (∀ c ∈ newCalls quietConn ((newSyncFileWriter quietConn ⟨0⟩).Write [7, 8]).2.syncConn,
        c.err = none) ∧
    1 ≤ (payloads
      (newCalls quietConn ((newSyncFileWriter quietConn ⟨0⟩).Write [7, 8]).2.syncConn)).length :=
  have h : ∀ c ∈ newCalls quietConn ((newSyncFileWriter quietConn ⟨0⟩).Write [7, 8]).2.syncConn,
      c.err = none := by
    simp [newSyncFileWriter, syncFileWriter.Write, syncFileWriter.Write.loop, quietConn,
      Conn.SendOctetString, Conn.SendBytes, Conn.perform, Conn.getNextErrToReturn, newCalls,
      SyncMaxChunkSize]
  ⟨h, (Write_chunk_count (newSyncFileWriter quietConn ⟨0⟩) [7, 8] h).2.1 (by simp)⟩

/-- With nothing scripted to fail, `Write` returns `(len(buf), nil)`. -/
theorem Write_quiet (w : syncFileWriter) (buf : Bytes) (h : w.syncConn.Errs = []) :
    (w.Write buf).1 = (buf.length, none) := by
  rw [Write_eq]
  dsimp only
  rw [Write_loop_quiet buf 0 w.syncConn h, Nat.zero_add]

/-- Whenever `Write(buf)` returns a nil error, the returned count is `len(buf)`,
whatever the length, every payload it sent is at most `SyncMaxChunkSize` long,
and the payloads concatenated in order are the whole of `buf`. -/
theorem Write_success_count (w : syncFileWriter) (buf : Bytes)
    (hnil : (w.Write buf).1.2 = none) :
    (w.Write buf).1.1 = buf.length ∧
    (payloads (newCalls w.syncConn (w.Write buf).2.syncConn)).flatten = buf ∧
    (∀ c ∈ payloads (newCalls w.syncConn (w.Write buf).2.syncConn),
      c.length ≤ SyncMaxChunkSize) := by
  obtain ⟨chunks, tail, htr, hch, hcnt, hres⟩ := Write_loop_spec buf 0 w.syncConn
  rw [Write_eq] at hnil ⊢
  dsimp only at hnil ⊢
  rw [newCalls_append _ _ _ htr]
  rcases hres with ⟨_, htail, hjoin⟩ | ⟨err, herr, _⟩
  · subst htail
    rw [List.append_nil, payloads_dataCalls]
    exact ⟨by simp [hcnt, hjoin], hjoin, fun c hc => (hch c hc).2⟩
  · rw [herr] at hnil
    exact absurd hnil (by simp)

theorem Write_success_count_witness :
    ((newSyncFileWriter quietConn ⟨0⟩).Write [1, 2, 3]).1.2 = none ∧
    ((newSyncFileWriter quietConn ⟨0⟩).Write [1, 2, 3]).1.1 = [1, 2, 3].length :=
  have h : ((newSyncFileWriter quietConn ⟨0⟩).Write [1, 2, 3]).1.2 = none := by
    simp [newSyncFileWriter, syncFileWriter.Write, syncFileWriter.Write.loop, quietConn,
      Conn.SendOctetString, Conn.SendBytes, Conn.perform, Conn.getNextErrToReturn,
      SyncMaxChunkSize]
  ⟨h, (Write_success_count (newSyncFileWriter quietConn ⟨0⟩) [1, 2, 3] h).1⟩

/-- Chunks of at most `m` bytes each that hold more than `m` bytes in all are at
least two. -/
theorem two_chunks_needed (chunks : List Bytes) (m : Nat)
    (hle : ∀ c ∈ chunks, c.length ≤ m) (hsum : m < chunks.flatten.length) :
    2 ≤ chunks.length := by
  rcases chunks with _ | ⟨c, _ | ⟨d, rest⟩⟩
  · simp at hsum
  · have := hle c (List.mem_cons_self _ _)
    simp at hsum
    omega
  · simp

/-- C3 (the code at the failing input): on a connection where nothing fails, a
`Write` of `SyncMaxChunkSize + 1` bytes returns `(SyncMaxChunkSize + 1, nil)`,
which is not the `min(len(buf), SyncMaxChunkSize)` that the method's comments
announce; nothing is left to the caller: the payloads sent are at least two
chunks and together they are the whole buffer. -/
theorem Write_large_buffer_not_truncated :
    ((newSyncFileWriter quietConn ⟨0⟩).Write (List.replicate (SyncMaxChunkSize + 1) 0)).1
        = (SyncMaxChunkSize + 1, none) ∧
    ¬ ((newSyncFileWriter quietConn ⟨0⟩).Write (List.replicate (SyncMaxChunkSize + 1) 0)).1.1
        = min (List.replicate (SyncMaxChunkSize + 1) 0).length SyncMaxChunkSize ∧
    (payloads (newCalls (newSyncFileWriter quietConn ⟨0⟩).syncConn
      ((newSyncFileWriter quietConn ⟨0⟩).Write
        (List.replicate (SyncMaxChunkSize + 1) 0)).2.syncConn)).flatten =
      List.replicate (SyncMaxChunkSize + 1) 0 ∧
    2 ≤ (payloads (newCalls (newSyncFileWriter quietConn ⟨0⟩).syncConn
      ((newSyncFileWriter quietConn ⟨0⟩).Write
        (List.replicate (SyncMaxChunkSize + 1) 0)).2.syncConn)).length := by
  have hw := Write_quiet (newSyncFileWriter quietConn ⟨0⟩)
    (List.replicate (SyncMaxChunkSize + 1) 0) rfl
  have hnil := congrArg Prod.snd hw
  have hs := Write_success_count (newSyncFileWriter quietConn ⟨0⟩)
    (List.replicate (SyncMaxChunkSize + 1) 0) hnil
  rw [List.length_replicate] at hw
  refine ⟨hw, ?_, hs.2.1, ?_⟩
  · rw [hw, List.length_replicate, Nat.min_eq_right (Nat.le_succ _)]
    exact Nat.succ_ne_self _
  · apply two_chunks_needed _ SyncMaxChunkSize hs.2.2
    rw [hs.2.1, List.length_replicate]
    exact Nat.lt_succ_self _

/-! ## Close -/

/-- C4: a `Close` that returns nil has added exactly three calls to the connection,
all successful: the done token, the modification time, one status read. None of
them is a data token or a data payload. The time sent is the writer's `mtime`
when that is not the zero time, and the time of the call when it is
(`MtimeOfClose`). -/
theorem Close_success_sequence (w : syncFileWriter) (now : Time)
    (hnil : (w.Close now).1 = none) :
    newCalls w.syncConn (w.Close now).2.syncConn =
      [⟨.SendOctetString StatusSyncDone, none⟩,
       ⟨.SendTime (if w.mtime = MtimeOfClose then now else w.mtime), none⟩,
       ⟨.ReadStatus "", none⟩] ∧
    payloads (newCalls w.syncConn (w.Close now).2.syncConn) = [] ∧
    (∀ c ∈ newCalls w.syncConn (w.Close now).2.syncConn,
      c.op ≠ .SendOctetString StatusSyncData) := by
  obtain ⟨⟨mt⟩, errs, status, trace, deadline⟩ := w
  have hz : ∀ a b : Time, (if (Time.mk mt).IsZero = true then a else b) =
      (if Time.mk mt = MtimeOfClose then a else b) := by
    intro a b
    by_cases h : mt = 0 <;> simp [Time.IsZero, MtimeOfClose, h]
  by_cases hs : status = StatusSuccess <;>
  rcases errs with _ | ⟨_ | e1, _ | ⟨_ | e2, _ | ⟨_ | e3, rest⟩⟩⟩ <;>
    simp [syncFileWriter.Close, Conn.SendOctetString, Conn.SendTime, Conn.ReadStatus,
      Conn.perform, Conn.getNextErrToReturn, newCalls, payloads, hs, hz, StatusSyncDone,
      StatusSyncData] at hnil ⊢

theorem Close_success_sequence_witness :
    ((newSyncFileWriter quietConn MtimeOfClose).Close ⟨1700⟩).1 = none ∧
    newCalls quietConn ((newSyncFileWriter quietConn MtimeOfClose).Close ⟨1700⟩).2.syncConn =
      [⟨.SendOctetString StatusSyncDone, none⟩, ⟨.SendTime ⟨1700⟩, none⟩,
       ⟨.ReadStatus "", none⟩] :=
  have h : ((newSyncFileWriter quietConn MtimeOfClose).Close ⟨1700⟩).1 = none := by decide
  ⟨h, (Close_success_sequence (newSyncFileWriter quietConn MtimeOfClose) ⟨1700⟩ h).1⟩

/-- The calls through which `Close` reports: what the done token, the time and the
status read return on the writer's connection, each on the connection as the
one before left it. The time sent is `t`. -/
theorem Close_decides (w : syncFileWriter) (now : Time) :
    ((w.Close now).1 ≠ none ↔
      (w.syncConn.SendOctetString StatusSyncDone).1 ≠ none ∨
      ((w.syncConn.SendOctetString StatusSyncDone).2.SendTime
        (if w.mtime = MtimeOfClose then now else w.mtime)).1 ≠ none ∨
      (((w.syncConn.SendOctetString StatusSyncDone).2.SendTime
        (if w.mtime = MtimeOfClose then now else w.mtime)).2.ReadStatus "").1.2 ≠ none ∨
      (((w.syncConn.SendOctetString StatusSyncDone).2.SendTime
        (if w.mtime = MtimeOfClose then now else w.mtime)).2.ReadStatus "").1.1
          ≠ StatusSuccess) ∧
    (∀ e, (w.syncConn.SendOctetString StatusSyncDone).1 = none →
      ((w.syncConn.SendOctetString StatusSyncDone).2.SendTime
        (if w.mtime = MtimeOfClose then now else w.mtime)).1 = some e →
      (w.Close now).1 = some (.wrapf "error writing file modification time: " e "") ∧
      newCalls w.syncConn (w.Close now).2.syncConn =
        [⟨.SendOctetString StatusSyncDone, none⟩,
         ⟨.SendTime (if w.mtime = MtimeOfClose then now else w.mtime), some e⟩]) ∧
    (∀ e, (w.syncConn.SendOctetString StatusSyncDone).1 = none →
      ((w.syncConn.SendOctetString StatusSyncDone).2.SendTime
        (if w.mtime = MtimeOfClose then now else w.mtime)).1 = none →
      (((w.syncConn.SendOctetString StatusSyncDone).2.SendTime
        (if w.mtime = MtimeOfClose then now else w.mtime)).2.ReadStatus "").1.2 = some e →
      (w.Close now).1 =
        some (.wrapf "error reading status, should receive 'ID_OKAY': " e "") ∧
      newCalls w.syncConn (w.Close now).2.syncConn =
        [⟨.SendOctetString StatusSyncDone, none⟩,
         ⟨.SendTime (if w.mtime = MtimeOfClose then now else w.mtime), none⟩,
         ⟨.ReadStatus "", some e⟩]) ∧
    ((w.syncConn.SendOctetString StatusSyncDone).1 = none →
      ((w.syncConn.SendOctetString StatusSyncDone).2.SendTime
        (if w.mtime = MtimeOfClose then now else w.mtime)).1 = none →
      (((w.syncConn.SendOctetString StatusSyncDone).2.SendTime
        (if w.mtime = MtimeOfClose then now else w.mtime)).2.ReadStatus "").1.2 = none →
      (((w.syncConn.SendOctetString StatusSyncDone).2.SendTime
        (if w.mtime = MtimeOfClose then now else w.mtime)).2.ReadStatus "").1.1
          ≠ StatusSuccess →
      (w.Close now).1 =
        some (.other "error reading status, should receive 'ID_OKAY': %!w(<nil>)") ∧
      newCalls w.syncConn (w.Close now).2.syncConn =
        [⟨.SendOctetString StatusSyncDone, none⟩,
         ⟨.SendTime (if w.mtime = MtimeOfClose then now else w.mtime), none⟩,
         ⟨.ReadStatus "", none⟩]) := by
  obtain ⟨⟨mt⟩, errs, status, trace, deadline⟩ := w
  have hz : ∀ a b : Time, (if (Time.mk mt).IsZero = true then a else b) =
      (if Time.mk mt = MtimeOfClose then a else b) := by
    intro a b
    by_cases h : mt = 0 <;> simp [Time.IsZero, MtimeOfClose, h]
  by_cases hs : status = StatusSuccess <;>
  rcases errs with _ | ⟨_ | e1, _ | ⟨_ | e2, _ | ⟨_ | e3, rest⟩⟩⟩ <;>
    simp [syncFileWriter.Close, Conn.SendOctetString, Conn.SendTime, Conn.ReadStatus,
      Conn.perform, Conn.getNextErrToReturn, newCalls, hs, hz, StatusSyncDone]

/-- What `Close` reports in terms of the calls it performed, and its return when
the done token fails to send. -/
theorem Close_performed (w : syncFileWriter) (now : Time) :
    ((w.Close now).1 ≠ none ↔
      ((∃ e, ⟨.SendOctetString StatusSyncDone, some e⟩ ∈
          newCalls w.syncConn (w.Close now).2.syncConn) ∨
       (∃ e, ⟨.SendTime (if w.mtime = MtimeOfClose then now else w.mtime), some e⟩ ∈
          newCalls w.syncConn (w.Close now).2.syncConn) ∨
       (∃ e, ⟨.ReadStatus "", some e⟩ ∈ newCalls w.syncConn (w.Close now).2.syncConn) ∨
       (⟨.ReadStatus "", none⟩ ∈ newCalls w.syncConn (w.Close now).2.syncConn ∧
          w.syncConn.Status ≠ StatusSuccess))) ∧
    (⟨.ReadStatus "", none⟩ ∈ newCalls w.syncConn (w.Close now).2.syncConn →
      w.syncConn.Status ≠ StatusSuccess → (w.Close now).1 ≠ none) ∧
    (∀ e, (w.syncConn.SendOctetString StatusSyncDone).1 = some e →
      newCalls w.syncConn (w.Close now).2.syncConn =
          [⟨.SendOctetString StatusSyncDone, some e⟩] ∧
      (w.Close now).1 =
          some (.wrapf "error sending done chunk to close stream: " e "")) := by
  obtain ⟨⟨mt⟩, errs, status, trace, deadline⟩ := w
  have hz : ∀ a b : Time, (if (Time.mk mt).IsZero = true then a else b) =
      (if Time.mk mt = MtimeOfClose then a else b) := by
    intro a b
    by_cases h : mt = 0 <;> simp [Time.IsZero, MtimeOfClose, h]
  by_cases hs : status = StatusSuccess <;>
  rcases errs with _ | ⟨_ | e1, _ | ⟨_ | e2, _ | ⟨_ | e3, rest⟩⟩⟩ <;>
    simp [syncFileWriter.Close, Conn.SendOctetString, Conn.SendTime, Conn.ReadStatus,
      Conn.perform, Conn.getNextErrToReturn, newCalls, hs, hz, StatusSyncDone]

/-- C5: `Close` returns a non-nil error if and only if sending the done token
fails, sending the time fails, the status read returns an error, or the status
read returns a status other than `StatusSuccess`, each call taken on the
connection as the call before left it. A failed done token is the only call
performed and its error is returned wrapped; a failed time send is the second
and last call; a failed status read is the third; and a status other than
`StatusSuccess` read with a nil error is reported as an error all the same. The
same holds in terms of the calls performed. -/
theorem Close_error_iff (w : syncFileWriter) (now : Time) :
    ((w.Close now).1 ≠ none ↔
      (w.syncConn.SendOctetString StatusSyncDone).1 ≠ none ∨
      ((w.syncConn.SendOctetString StatusSyncDone).2.SendTime
        (if w.mtime = MtimeOfClose then now else w.mtime)).1 ≠ none ∨
      (((w.syncConn.SendOctetString StatusSyncDone).2.SendTime
        (if w.mtime = MtimeOfClose then now else w.mtime)).2.ReadStatus "").1.2 ≠ none ∨
      (((w.syncConn.SendOctetString StatusSyncDone).2.SendTime
        (if w.mtime = MtimeOfClose then now else w.mtime)).2.ReadStatus "").1.1
          ≠ StatusSuccess) ∧
    (∀ e, (w.syncConn.SendOctetString StatusSyncDone).1 = some e →
      newCalls w.syncConn (w.Close now).2.syncConn =
          [⟨.SendOctetString StatusSyncDone, some e⟩] ∧
      (w.Close now).1 =
          some (.wrapf "error sending done chunk to close stream: " e "")) ∧
    (∀ e, (w.syncConn.SendOctetString StatusSyncDone).1 = none →
      ((w.syncConn.SendOctetString StatusSyncDone).2.SendTime
        (if w.mtime = MtimeOfClose then now else w.mtime)).1 = some e →
      (w.Close now).1 = some (.wrapf "error writing file modification time: " e "") ∧
      newCalls w.syncConn (w.Close now).2.syncConn =
        [⟨.SendOctetString StatusSyncDone, none⟩,
         ⟨.SendTime (if w.mtime = MtimeOfClose then now else w.mtime), some e⟩]) ∧
    (∀ e, (w.syncConn.SendOctetString StatusSyncDone).1 = none →
      ((w.syncConn.SendOctetString StatusSyncDone).2.SendTime
        (if w.mtime = MtimeOfClose then now else w.mtime)).1 = none →
      (((w.syncConn.SendOctetString StatusSyncDone).2.SendTime
        (if w.mtime = MtimeOfClose then now else w.mtime)).2.ReadStatus "").1.2 = some e →
      (w.Close now).1 =
        some (.wrapf "error reading status, should receive 'ID_OKAY': " e "") ∧
      newCalls w.syncConn (w.Close now).2.syncConn =
        [⟨.SendOctetString StatusSyncDone, none⟩,
         ⟨.SendTime (if w.mtime = MtimeOfClose then now else w.mtime), none⟩,
         ⟨.ReadStatus "", some e⟩]) ∧
    ((w.syncConn.SendOctetString StatusSyncDone).1 = none →
      ((w.syncConn.SendOctetString StatusSyncDone).2.SendTime
        (if w.mtime = MtimeOfClose then now else w.mtime)).1 = none →
      (((w.syncConn.SendOctetString StatusSyncDone).2.SendTime
        (if w.mtime = MtimeOfClose then now else w.mtime)).2.ReadStatus "").1.2 = none →
      (((w.syncConn.SendOctetString StatusSyncDone).2.SendTime
        (if w.mtime = MtimeOfClose then now else w.mtime)).2.ReadStatus "").1.1
          ≠ StatusSuccess →
      (w.Close now).1 =
        some (.other "error reading status, should receive 'ID_OKAY': %!w(<nil>)") ∧
      newCalls w.syncConn (w.Close now).2.syncConn =
        [⟨.SendOctetString StatusSyncDone, none⟩,
         ⟨.SendTime (if w.mtime = MtimeOfClose then now else w.mtime), none⟩,
         ⟨.ReadStatus "", none⟩]) ∧
    ((w.Close now).1 ≠ none ↔
      ((∃ e, ⟨.SendOctetString StatusSyncDone, some e⟩ ∈
          newCalls w.syncConn (w.Close now).2.syncConn) ∨
       (∃ e, ⟨.SendTime (if w.mtime = MtimeOfClose then now else w.mtime), some e⟩ ∈
          newCalls w.syncConn (w.Close now).2.syncConn) ∨
       (∃ e, ⟨.ReadStatus "", some e⟩ ∈ newCalls w.syncConn (w.Close now).2.syncConn) ∨
       (⟨.ReadStatus "", none⟩ ∈ newCalls w.syncConn (w.Close now).2.syncConn ∧
          w.syncConn.Status ≠ StatusSuccess))) :=
  ⟨(Close_decides w now).1, (Close_performed w now).2.2, (Close_decides w now).2.1,
    (Close_decides w now).2.2.1, (Close_decides w now).2.2.2, (Close_performed w now).1⟩

theorem Close_error_iff_witness :
    ((newSyncFileWriter { quietConn with Status := "FAIL" } MtimeOfClose).Close ⟨1700⟩).1
        ≠ none ∧
    ((newSyncFileWriter { quietConn with Errs := [none, some (.other "broken pipe")] }
        ⟨42⟩).Close ⟨1700⟩).1 =
      some (.wrapf "error writing file modification time: " (.other "broken pipe") "") ∧
    ((newSyncFileWriter quietConn ⟨42⟩).Close ⟨1700⟩).1 = none :=
  ⟨(Close_error_iff (newSyncFileWriter { quietConn with Status := "FAIL" } MtimeOfClose)
      ⟨1700⟩).1.mpr (Or.inr (Or.inr (Or.inr (by decide)))),
    ((Close_error_iff
      (newSyncFileWriter { quietConn with Errs := [none, some (.other "broken pipe")] } ⟨42⟩)
      ⟨1700⟩).2.2.1 (.other "broken pipe") (by decide) (by decide)).1,
    by
      have h := (Close_error_iff (newSyncFileWriter quietConn ⟨42⟩) ⟨1700⟩).1
      by_contra hne
      exact absurd (h.mp hne) (by decide)⟩

/-! ## prepareCommandLine -/

/-- An error that wraps an error matching the target matches it too. -/
theorem Is_wrapf (pre : String) (inner : Error) (post : String) (target : Error)
    (h : inner.Is target = true) : (Error.wrapf pre inner post).Is target = true := by
  rw [Error.Is, h, Bool.or_true]

/-- On arguments without a double quote the loop runs to its end and leaves every
argument in its quoted form. -/
theorem prepareCommandLine_loop_ok (cw : String → Bool) (i : Nat) (args : List String)
    (hnq : ∀ a ∈ args, hasQuote a = false) :
    prepareCommandLine.loop cw i args = (none, args.map (quoted cw)) := by
  induction args generalizing i with
  | nil => rfl
  | cons a rest ih =>
    have ha : hasQuote a = false := hnq a (List.mem_cons_self _ _)
    have hrest := ih (i + 1) (fun b hb => hnq b (List.mem_cons_of_mem _ hb))
    simp [prepareCommandLine.loop, ha, hrest, quoted]

/-- When some argument has a double quote the loop returns at the first such
argument, with the error that names its index. -/
theorem prepareCommandLine_loop_quote (cw : String → Bool) (i : Nat) (args : List String)
    (hq : ∃ a ∈ args, hasQuote a = true) :
    ∃ k arg, args[k]? = some arg ∧ hasQuote arg = true ∧
      (∀ j < k, ∀ a, args[j]? = some a → hasQuote a = false) ∧
      (prepareCommandLine.loop cw i args).1 = some (quoteError (i + k) arg) := by
  induction args generalizing i with
  | nil => simp at hq
  | cons a rest ih =>
    by_cases ha : hasQuote a = true
    · refine ⟨0, a, by simp, ha, fun j hj => absurd hj (Nat.not_lt_zero j), ?_⟩
      simp [prepareCommandLine.loop, ha, quoteError]
    · have ha0 : hasQuote a = false := by simpa using ha
      have hq1 : ∃ b ∈ rest, hasQuote b = true := by
        obtain ⟨b, hb, hbq⟩ := hq
        rcases List.mem_cons.mp hb with rfl | hb
        · exact absurd hbq ha
        · exact ⟨b, hb, hbq⟩
      obtain ⟨k, arg, hk, hargq, hmin, hres⟩ := ih (i + 1) hq1
      refine ⟨k + 1, arg, by simpa using hk, hargq, ?_, ?_⟩
      · intro j hj b hb
        cases j with
        | zero =>
          have : b = a := by simpa using hb.symm
          rw [this]; exact ha0
        | succ j => exact hmin j (by omega) b (by simpa using hb)
      · simp only [prepareCommandLine.loop, ha0, Bool.false_eq_true, ↓reduceIte]
        rw [hres]
        congr 2
        omega

/-- C6: given that the helper `isBlank` reports the empty string blank,
`prepareCommandLine` called with the empty command returns the empty string and
an error that wraps `ErrAssertion`, whatever the arguments; the arguments are not
validated (the error is not a parse error even when one has a double quote) and
are left as they were. -/
theorem prepareCommandLine_empty_command (isBlank containsWhitespace : String → Bool)
    (args : List String) (hblank : isBlank "" = true) :
    prepareCommandLine isBlank containsWhitespace "" args =
      (("", some (.wrapf "" ErrAssertion ": command cannot be empty")), args) ∧
    (Error.wrapf "" ErrAssertion ": command cannot be empty").Is ErrAssertion = true ∧
    (Error.wrapf "" ErrAssertion ": command cannot be empty").Is ErrParse = false := by
  refine ⟨?_, by decide, by decide⟩
  simp [prepareCommandLine, hblank]

theorem prepareCommandLine_empty_command_witness :
    (fun s : String => s.toList.all Char.isWhitespace) "" = true ∧
    prepareCommandLine (fun s => s.toList.all Char.isWhitespace)
        (fun s => s.toList.any Char.isWhitespace) "" ["a\"b", "c d"] =
      (("", some (.wrapf "" ErrAssertion ": command cannot be empty")), ["a\"b", "c d"]) :=
  ⟨by decide, (prepareCommandLine_empty_command (fun s => s.toList.all Char.isWhitespace)
    (fun s => s.toList.any Char.isWhitespace) ["a\"b", "c d"] (by decide)).1⟩

/-- C7: for a command that is not blank and arguments of which one has a double
quote, `prepareCommandLine` returns the empty string and an error wrapping
`ErrParse` whose text names the smallest index `k` of such an argument; and
`RunShellCommand` then returns a nil connection and a non-nil error (still
wrapping `ErrParse`) with the environment untouched: no dial, no message. -/
theorem prepareCommandLine_double_quote (isBlank containsWhitespace : String → Bool)
    (cmd : String) (args : List String) (hcmd : isBlank cmd = false)
    (hq : ∃ a ∈ args, hasQuote a = true) :
    ∃ k arg, args[k]? = some arg ∧ hasQuote arg = true ∧
      (∀ j < k, ∀ a, args[j]? = some a → hasQuote a = false) ∧
      (prepareCommandLine isBlank containsWhitespace cmd args).1 =
        ("", some (quoteError k arg)) ∧
      (quoteError k arg).Is ErrParse = true ∧
      ∀ (c : Device) (v2 : Bool) (now1 now2 : Time),
        (c.RunShellCommand isBlank containsWhitespace v2 cmd args now1 now2).1.1 = false ∧
        (∃ e, (c.RunShellCommand isBlank containsWhitespace v2 cmd args now1 now2).1.2 = some e ∧
          e.Is ErrParse = true) ∧
        (c.RunShellCommand isBlank containsWhitespace v2 cmd args now1 now2).2 = c.server ∧
        newCalls c.server
          (c.RunShellCommand isBlank containsWhitespace v2 cmd args now1 now2).2 = [] := by
  obtain ⟨k, arg, hk, hargq, hmin, hres⟩ :=
    prepareCommandLine_loop_quote containsWhitespace 0 args hq
  rw [Nat.zero_add] at hres
  have hprep : prepareCommandLine isBlank containsWhitespace cmd args =
      (("", some (quoteError k arg)),
        (prepareCommandLine.loop containsWhitespace 0 args).2) := by
    rcases hl : prepareCommandLine.loop containsWhitespace 0 args with ⟨e, args1⟩
    rw [hl] at hres
    dsimp only at hres
    subst hres
    simp [prepareCommandLine, hcmd, hl]
  have his : (quoteError k arg).Is ErrParse = true := by
    simp [quoteError, Error.Is, ErrParse]
  refine ⟨k, arg, hk, hargq, hmin, by rw [hprep], his, ?_⟩
  intro c v2 now1 now2
  simp only [Device.RunShellCommand, hprep, wrapClientError, newCalls, List.drop_length]
  exact ⟨trivial, ⟨_, rfl, Is_wrapf _ _ _ _ his⟩, trivial, trivial⟩

theorem prepareCommandLine_double_quote_witness :
    (∃ a ∈ ["-n", "a b", "say \"hi\"", "x\""], hasQuote a = true) ∧
    ∃ k arg, ["-n", "a b", "say \"hi\"", "x\""][k]? = some arg ∧ hasQuote arg = true ∧
      (∀ j < k, ∀ a, ["-n", "a b", "say \"hi\"", "x\""][j]? = some a → hasQuote a = false) ∧
      (prepareCommandLine (fun s => s.toList.all Char.isWhitespace)
        (fun s => s.toList.any Char.isWhitespace) "echo"
        ["-n", "a b", "say \"hi\"", "x\""]).1 = ("", some (quoteError k arg)) :=
  have hq : ∃ a ∈ ["-n", "a b", "say \"hi\"", "x\""], hasQuote a = true :=
    ⟨"x\"", by simp, by decide⟩
  have h := prepareCommandLine_double_quote (fun s => s.toList.all Char.isWhitespace)
    (fun s => s.toList.any Char.isWhitespace) "echo" ["-n", "a b", "say \"hi\"", "x\""]
    (by decide) hq
  ⟨hq, h.imp fun _ hk => hk.imp fun _ ha => ⟨ha.1, ha.2.1, ha.2.2.1, ha.2.2.2.1⟩⟩

/-- C8: for a command that is not blank and arguments none of which has a double
quote, `prepareCommandLine` succeeds; it returns the command alone when there are
no arguments, and otherwise the command, one space, and the arguments joined by
single spaces, each argument that contains whitespace wrapped in one pair of
double quotes and every other argument verbatim. The command is the unaltered
head of the result. -/
theorem prepareCommandLine_success (isBlank containsWhitespace : String → Bool)
    (cmd : String) (args : List String) (hcmd : isBlank cmd = false)
    (hnq : ∀ a ∈ args, hasQuote a = false) :
    (prepareCommandLine isBlank containsWhitespace cmd args).1 =
      (if args = [] then cmd
        else cmd ++ " " ++ " ".intercalate (args.map fun a =>
          if containsWhitespace a then "\"" ++ a ++ "\"" else a), none) ∧
    (args = [] → (prepareCommandLine isBlank containsWhitespace cmd args).1 = (cmd, none)) := by
  have hl := prepareCommandLine_loop_ok containsWhitespace 0 args hnq
  have hq : quoted containsWhitespace = fun a =>
      if containsWhitespace a then "\"" ++ a ++ "\"" else a := rfl
  rw [hq] at hl
  cases args with
  | nil => simp [prepareCommandLine, hcmd, prepareCommandLine.loop]
  | cons a rest => simp [prepareCommandLine, hcmd, hl]

theorem prepareCommandLine_success_witness :
    (∀ a ∈ ["-l", "my file", "x"], hasQuote a = false) ∧
    (prepareCommandLine (fun s => s.toList.all Char.isWhitespace)
        (fun s => s.toList.any Char.isWhitespace) "ls" ["-l", "my file", "x"]).1 =
      ("ls -l \"my file\" x", none) :=
  have hnq : ∀ a ∈ ["-l", "my file", "x"], hasQuote a = false := by decide
  ⟨hnq, (prepareCommandLine_success (fun s => s.toList.all Char.isWhitespace)
    (fun s => s.toList.any Char.isWhitespace) "ls" ["-l", "my file", "x"]
    (by decide) hnq).1.trans (by decide)⟩

/-! ## RunShellCommand -/

/-- C9: when validation produces the command line `cl`, the messages that
`RunShellCommand` passes to `SendMessage` are, in order, a prefix of: the routing
request, then `shell:` followed by `cl` (`shell,v2:` followed by `cl` when `v2`
is set); nothing else is ever sent. Once routing to the device has succeeded they
are exactly these two, and when `RunShellCommand` returns nil the shell request
was sent successfully. -/
theorem RunShellCommand_request (isBlank containsWhitespace : String → Bool) (c : Device)
    (v2 : Bool) (cmd : String) (args : List String) (now1 now2 : Time)
    (cl : String) (args1 : List String)
    (hprep : prepareCommandLine isBlank containsWhitespace cmd args = ((cl, none), args1)) :
    messages (newCalls c.server
        (c.RunShellCommand isBlank containsWhitespace v2 cmd args now1 now2).2) <+:
      ["host:" ++ c.descriptor.transportDescriptor,
        if v2 then "shell,v2:" ++ cl else "shell:" ++ cl] ∧
    ((c.dialDevice c.CmdTimeoutShort now1).1.2 = none →
      messages (newCalls c.server
          (c.RunShellCommand isBlank containsWhitespace v2 cmd args now1 now2).2) =
        ["host:" ++ c.descriptor.transportDescriptor,
          if v2 then "shell,v2:" ++ cl else "shell:" ++ cl]) ∧
    ((c.RunShellCommand isBlank containsWhitespace v2 cmd args now1 now2).1.2 = none →
      ⟨.SendMessage (if v2 then "shell,v2:" ++ cl else "shell:" ++ cl), none⟩ ∈
        newCalls c.server
          (c.RunShellCommand isBlank containsWhitespace v2 cmd args now1 now2).2) := by
  obtain ⟨⟨errs, status, trace, deadline⟩, desc, ts, tl⟩ := c
  iterate 10
    rcases errs with _ | ⟨_ | e, errs⟩ <;>
      (try (simp [Device.RunShellCommand, hprep, Device.dialDevice, readStatusWithTimeout,
        Conn.Dial, Conn.SendMessage, Conn.Close, Conn.ReadStatus, Conn.SetReadDeadline,
        Conn.perform, Conn.getNextErrToReturn, wrapClientError, newCalls, messages]; done))
  all_goals
    rcases errs with _ | ⟨_ | e1, errs⟩ <;>
      simp [Device.RunShellCommand, hprep, Device.dialDevice, readStatusWithTimeout,
        Conn.Dial, Conn.SendMessage, Conn.Close, Conn.ReadStatus, Conn.SetReadDeadline,
        Conn.perform, Conn.getNextErrToReturn, wrapClientError, newCalls, messages]

theorem RunShellCommand_request_witness :
    prepareCommandLine (fun s => s.toList.all Char.isWhitespace)
        (fun s => s.toList.any Char.isWhitespace) "ls" ["a b"] =
      (("ls \"a b\"", none), ["\"a b\""]) ∧
    messages (newCalls sampleDevice.server
        (sampleDevice.RunShellCommand (fun s => s.toList.all Char.isWhitespace)
          (fun s => s.toList.any Char.isWhitespace) true "ls" ["a b"] ⟨100⟩ ⟨200⟩).2) =
      ["host:transport-any", "shell,v2:ls \"a b\""] :=
  ⟨by decide,
    ((RunShellCommand_request (fun s => s.toList.all Char.isWhitespace)
      (fun s => s.toList.any Char.isWhitespace) sampleDevice true "ls" ["a b"] ⟨100⟩ ⟨200⟩
      "ls \"a b\"" ["\"a b\""] (by decide)).2.1 (by decide)).trans (by decide)⟩

/-! ## readStatusWithTimeout -/

/-- C10 (the code at the failing input): on a connection where setting the
deadline succeeds and the status read then fails, `readStatusWithTimeout`
returns the read error after two calls only; the deadline `now + timeout` is
still in force and no call has reset it to the zero time. -/
theorem readStatusWithTimeout_error_keeps_deadline :
    (readStatusWithTimeout { quietConn with Errs := [none, some (.other "i/o timeout")] }
        "host:transport-any" 5 ⟨100⟩).1 = ("", some (.other "i/o timeout")) ∧
    (readStatusWithTimeout { quietConn with Errs := [none, some (.other "i/o timeout")] }
        "host:transport-any" 5 ⟨100⟩).2.Trace =
      [⟨.SetReadDeadline ⟨105⟩, none⟩,
       ⟨.ReadStatus "host:transport-any", some (.other "i/o timeout")⟩] ∧
    (readStatusWithTimeout { quietConn with Errs := [none, some (.other "i/o timeout")] }
        "host:transport-any" 5 ⟨100⟩).2.readDeadline = ⟨105⟩ ∧
    ¬ (readStatusWithTimeout { quietConn with Errs := [none, some (.other "i/o timeout")] }
        "host:transport-any" 5 ⟨100⟩).2.readDeadline = ⟨0⟩ := by
  decide

/-! ## Write: the failure path -/

/-- The payloads among a run of data chunks followed by the calls of a chunk that
failed are those of the run: the failed chunk contributes none. -/
theorem payloads_dataCalls_failed (chunks : List Bytes) (tail : List Call) (err : Error)
    (data : Bytes)
    (htail : tail = [⟨.SendOctetString StatusSyncData, some err⟩] ∨
      tail = [⟨.SendOctetString StatusSyncData, none⟩, ⟨.SendBytes data, some err⟩]) :
    payloads (dataCalls chunks ++ tail) = chunks := by
  have hsplit : payloads (dataCalls chunks ++ tail) =
      payloads (dataCalls chunks) ++ payloads tail := by
    simp [payloads]
  rw [hsplit, payloads_dataCalls]
  rcases htail with rfl | rfl <;> simp [payloads]

/-- Chunks that all have length `m` hold `m` times their number of bytes. -/
theorem flatten_length_full (chunks : List Bytes) (m : Nat)
    (hfull : ∀ c ∈ chunks, c.length = m) : chunks.flatten.length = m * chunks.length := by
  induction chunks with
  | nil => rfl
  | cons c cs ih =>
    rw [List.flatten_cons, List.length_append, List.length_cons, Nat.mul_succ,
      ih (fun x hx => hfull x (List.mem_cons_of_mem _ hx)), hfull c (List.mem_cons_self _ _)]
    omega

/-- When `Write(buf)` returns an error, that error is the one the failing send
returned, the calls added are a run of complete data chunks followed by the
failing chunk, and the count is the total length of the complete chunks. -/
theorem Write_failure_spec (w : syncFileWriter) (buf : Bytes) (err : Error)
    (herr : (w.Write buf).1.2 = some err) :
    ∃ chunks : List Bytes,
      payloads (newCalls w.syncConn (w.Write buf).2.syncConn) = chunks ∧
      (newCalls w.syncConn (w.Write buf).2.syncConn =
          dataCalls chunks ++ [⟨.SendOctetString StatusSyncData, some err⟩] ∨
       newCalls w.syncConn (w.Write buf).2.syncConn =
          dataCalls chunks ++ [⟨.SendOctetString StatusSyncData, none⟩,
            ⟨.SendBytes ((buf.drop (w.Write buf).1.1).take SyncMaxChunkSize), some err⟩]) ∧
      (w.Write buf).1.1 = chunks.flatten.length ∧
      (w.Write buf).1.1 = SyncMaxChunkSize * chunks.length ∧
      (w.Write buf).1.1 < buf.length ∧
      buf.take (w.Write buf).1.1 = chunks.flatten := by
  obtain ⟨chunks, tail, htr, _, hcnt, hres⟩ := Write_loop_spec buf 0 w.syncConn
  rw [Write_eq] at herr ⊢
  dsimp only at herr ⊢
  rw [newCalls_append _ _ _ htr]
  rcases hres with ⟨hnone, _, _⟩ | ⟨e, he, hfull, htake, hlt, htl⟩
  · rw [hnone] at herr
    exact absurd herr (by simp)
  · rw [he] at herr
    have hee : e = err := by simpa using herr
    subst hee
    rw [Nat.zero_add] at hcnt
    have hmul := flatten_length_full chunks SyncMaxChunkSize hfull
    refine ⟨chunks, payloads_dataCalls_failed chunks tail e _ htl, ?_, hcnt, ?_, ?_, ?_⟩
    · rw [hcnt]
      rcases htl with rfl | rfl
      · exact Or.inl rfl
      · exact Or.inr rfl
    · rw [hcnt, hmul]
    · rw [hcnt]; exact hlt
    · rw [hcnt]; exact htake.symm

/-- An operation on a connection whose script starts with the outcome `e`: it
returns `e`, the script loses its head and the call is recorded. -/
theorem perform_cons (s : Conn) (op : Op) (e : Option Error) (rest : List (Option Error))
    (h : s.Errs = e :: rest) :
    s.perform op = (e, { s with Errs := rest, Trace := s.Trace ++ [⟨op, e⟩] }) := by
  unfold Conn.perform Conn.getNextErrToReturn
  rw [h]

/-- The loop of `Write` on a connection whose first `p` operations succeed and whose
next one fails with `err`, when that operation belongs to a chunk of the buffer
(the chunk number `p / 2` starts inside it): the loop returns `err` and counts
the `p / 2` chunks before it, after `p + 1` calls. -/
theorem Write_loop_failing (p : Nat) (buf : Bytes) (written : Nat) (conn : Conn)
    (err : Error) (rest : List (Option Error))
    (hscript : conn.Errs = List.replicate p none ++ some err :: rest)
    (hreach : SyncMaxChunkSize * (p / 2) < buf.length) :
    (syncFileWriter.Write.loop buf written conn).1 =
      (written + SyncMaxChunkSize * (p / 2), some err) ∧
    (syncFileWriter.Write.loop buf written conn).2.Trace.length =
      conn.Trace.length + (p + 1) := by
  induction p using Nat.strong_induction_on generalizing buf written conn with
  | _ p ih =>
    have hpos : buf.length > 0 := by omega
    rw [syncFileWriter.Write.loop]
    simp only [hpos, ↓reduceDIte]
    rw [partialBuf_eq]
    rcases p with _ | _ | p
    · have h1 := perform_cons conn (.SendOctetString StatusSyncData) (some err) rest
        (by simpa using hscript)
      simp [Conn.SendOctetString, h1]
    · have h1 := perform_cons conn (.SendOctetString StatusSyncData) none (some err :: rest)
        (by simpa [List.replicate] using hscript)
      simp only [Conn.SendOctetString, h1]
      have h2 := perform_cons
        { conn with Errs := some err :: rest,
                    Trace := conn.Trace ++ [⟨.SendOctetString StatusSyncData, none⟩] }
        (.SendBytes (buf.take (min buf.length SyncMaxChunkSize))) (some err) rest rfl
      simp [Conn.SendBytes, h2]
    · have hdiv : (p + 1 + 1) / 2 = p / 2 + 1 := by omega
      rw [hdiv] at hreach ⊢
      rw [Nat.mul_succ] at hreach
      have hmin : min buf.length SyncMaxChunkSize = SyncMaxChunkSize := by omega
      rw [hmin]
      have h1 := perform_cons conn (.SendOctetString StatusSyncData) none
        (none :: (List.replicate p none ++ some err :: rest))
        (by simpa [List.replicate_succ] using hscript)
      simp only [Conn.SendOctetString, h1]
      have h2 := perform_cons
        { conn with Errs := none :: (List.replicate p none ++ some err :: rest),
                    Trace := conn.Trace ++ [⟨.SendOctetString StatusSyncData, none⟩] }
        (.SendBytes (buf.take SyncMaxChunkSize)) none
        (List.replicate p none ++ some err :: rest) rfl
      simp only [Conn.SendBytes, h2]
      have hlen : (buf.take SyncMaxChunkSize).length = SyncMaxChunkSize := by
        rw [List.length_take]; omega
      have hstep := ih p (by omega) (buf.drop (buf.take SyncMaxChunkSize).length)
        (written + (buf.take SyncMaxChunkSize).length)
        { conn with Errs := List.replicate p none ++ some err :: rest,
                    Trace := conn.Trace ++ [⟨.SendOctetString StatusSyncData, none⟩] ++
                      [⟨.SendBytes (buf.take SyncMaxChunkSize), none⟩] }
        rfl (by rw [hlen, List.length_drop]; omega)
      refine ⟨?_, ?_⟩
      · rw [hstep.1, hlen, Nat.mul_succ]
        apply Prod.ext
        · simp only; omega
        · rfl
      · rw [hstep.2]
        simp only [List.length_append, List.length_singleton]
        omega

/-- A run of data chunks is two calls for each chunk. -/
theorem dataCalls_length (chunks : List Bytes) :
    (dataCalls chunks).length = 2 * chunks.length := by
  induction chunks with
  | nil => rfl
  | cons c cs ih =>
    rw [dataCalls_cons, List.length_append, ih, List.length_cons]
    simp only [List.length_cons, List.length_nil]
    omega

/-- C20: when a send fails during `Write(buf)`, that is, when the first `p`
operations on the connection succeed, the next one fails with `err`, and that
operation belongs to a chunk of the buffer (chunk number `p / 2` starts inside
`buf`), `Write` returns `err` and the count `n = SyncMaxChunkSize * (p / 2)`, a
multiple of `SyncMaxChunkSize` below `len(buf)`. The calls added are the `p / 2`
complete chunks, whose payloads are the first `n` bytes of `buf`, followed by
the failing chunk: its token alone when the token failed (`p` even), its token
and its payload when the payload failed (`p` odd); the failing chunk is not
counted in either case. -/
theorem Write_failure_count (w : syncFileWriter) (buf : Bytes) (p : Nat) (err : Error)
    (rest : List (Option Error))
    (hscript : w.syncConn.Errs = List.replicate p none ++ some err :: rest)
    (hreach : SyncMaxChunkSize * (p / 2) < buf.length) :
    (w.Write buf).1 = (SyncMaxChunkSize * (p / 2), some err) ∧
    (w.Write buf).1.1 < buf.length ∧
    ∃ chunks : List Bytes,
      chunks.length = p / 2 ∧
      (∀ c ∈ chunks, c.length = SyncMaxChunkSize) ∧
      chunks.flatten = buf.take (w.Write buf).1.1 ∧
      payloads (newCalls w.syncConn (w.Write buf).2.syncConn) = chunks ∧
      (p % 2 = 0 → newCalls w.syncConn (w.Write buf).2.syncConn =
          dataCalls chunks ++ [⟨.SendOctetString StatusSyncData, some err⟩]) ∧
      (p % 2 = 1 → newCalls w.syncConn (w.Write buf).2.syncConn =
          dataCalls chunks ++ [⟨.SendOctetString StatusSyncData, none⟩,
            ⟨.SendBytes ((buf.drop (w.Write buf).1.1).take SyncMaxChunkSize), some err⟩]) := by
  have hloop := Write_loop_failing p buf 0 w.syncConn err rest hscript hreach
  rw [Nat.zero_add] at hloop
  have hret : (w.Write buf).1 = (SyncMaxChunkSize * (p / 2), some err) := by
    rw [Write_eq]; exact hloop.1
  have hn : (w.Write buf).1.1 = SyncMaxChunkSize * (p / 2) := congrArg Prod.fst hret
  have herr : (w.Write buf).1.2 = some err := congrArg Prod.snd hret
  have hlen : (newCalls w.syncConn (w.Write buf).2.syncConn).length = p + 1 := by
    rw [Write_eq]
    simp only [newCalls, List.length_drop, hloop.2]
    omega
  obtain ⟨chunks, hpay, htl, hflat, hmul, hlt, htake⟩ := Write_failure_spec w buf err herr
  have hmax : 0 < SyncMaxChunkSize := by simp [SyncMaxChunkSize]
  have hk : chunks.length = p / 2 :=
    Nat.eq_of_mul_eq_mul_left hmax (by rw [← hmul, hn])
  have hfull : ∀ c ∈ chunks, c.length = SyncMaxChunkSize := by
    obtain ⟨cs, tail, htr, _, hcnt, hres⟩ := Write_loop_spec buf 0 w.syncConn
    rcases hres with ⟨hnone, _, _⟩ | ⟨e, _, hf, _, _, htl2⟩
    · rw [Write_eq] at herr
      rw [hnone] at herr
      exact absurd herr (by simp)
    · have hcs : payloads (newCalls w.syncConn (w.Write buf).2.syncConn) = cs := by
        rw [Write_eq]
        dsimp only
        rw [newCalls_append _ _ _ htr]
        exact payloads_dataCalls_failed cs tail e _ htl2
      rw [← hpay, hcs]
      exact hf
  refine ⟨hret, hlt, chunks, hk, hfull, htake.symm, hpay, ?_, ?_⟩
  · intro hpar
    rcases htl with h | h
    · exact h
    · exfalso
      rw [h, List.length_append, dataCalls_length, hk] at hlen
      simp only [List.length_cons, List.length_nil] at hlen
      omega
  · intro hpar
    rcases htl with h | h
    · exfalso
      rw [h, List.length_append, dataCalls_length, hk] at hlen
      simp only [List.length_cons, List.length_nil] at hlen
      omega
    · exact h

theorem Write_failure_count_witness :
    (newSyncFileWriter
        { quietConn with Errs := List.replicate 3 none ++ some (.other "broken pipe") :: [] }
        ⟨0⟩).syncConn.Errs = List.replicate 3 none ++ some (.other "broken pipe") :: [] ∧
    SyncMaxChunkSize * (3 / 2) < (List.replicate (SyncMaxChunkSize + 1) 0).length ∧
    ((newSyncFileWriter
        { quietConn with Errs := List.replicate 3 none ++ some (.other "broken pipe") :: [] }
        ⟨0⟩).Write (List.replicate (SyncMaxChunkSize + 1) 0)).1 =
      (SyncMaxChunkSize * (3 / 2), some (.other "broken pipe")) :=
  have hreach : SyncMaxChunkSize * (3 / 2) < (List.replicate (SyncMaxChunkSize + 1) 0).length := by
    rw [List.length_replicate]
    decide
  ⟨rfl, hreach,
    (Write_failure_count
      (newSyncFileWriter
        { quietConn with Errs := List.replicate 3 none ++ some (.other "broken pipe") :: [] }
        ⟨0⟩)
      (List.replicate (SyncMaxChunkSize + 1) 0) 3 (.other "broken pipe") [] rfl hreach).1⟩

/-! ## prepareCommandLine: the caller's slice -/

/-- An argument wrapped in double quotes contains a double quote. -/
theorem hasQuote_wrapped (a : String) : hasQuote ("\"" ++ a ++ "\"") = true := by
  simp [hasQuote, String.toList]

/-- When the first argument with a double quote is at index `k`, the loop returns
the error for `k` and leaves the slice with the elements before `k` in their
quoted form and the elements from `k` on untouched. -/
theorem prepareCommandLine_loop_first_quote (cw : String → Bool) (i : Nat)
    (args : List String) (k : Nat) (arg : String) (hk : args[k]? = some arg)
    (hq : hasQuote arg = true)
    (hmin : ∀ j < k, ∀ a, args[j]? = some a → hasQuote a = false) :
    prepareCommandLine.loop cw i args =
      (some (quoteError (i + k) arg), (args.take k).map (quoted cw) ++ args.drop k) := by
  induction args generalizing i k with
  | nil => simp at hk
  | cons a rest ih =>
    cases k with
    | zero =>
      have ha : a = arg := by simpa using hk
      subst ha
      simp [prepareCommandLine.loop, hq, quoteError]
    | succ k =>
      have ha : hasQuote a = false := hmin 0 (Nat.succ_pos k) a (by simp)
      have hrest := ih (i + 1) k (by simpa using hk)
        (fun j hj b hb => hmin (j + 1) (by omega) b (by simpa using hb))
      simp only [prepareCommandLine.loop, ha, Bool.false_eq_true, ↓reduceIte, hrest,
        List.take_succ_cons, List.map_cons, List.drop_succ_cons, List.cons_append, quoted]
      congr 3
      omega

/-- For a command that is not blank and a slice of which some element has a double
quote, `prepareCommandLine` fails with a parse error. -/
theorem prepareCommandLine_quote_fails (isBlank cw : String → Bool) (cmd : String)
    (args : List String) (hcmd : isBlank cmd = false) (hq : ∃ a ∈ args, hasQuote a = true) :
    ∃ e, (prepareCommandLine isBlank cw cmd args).1 = ("", some e) ∧ e.Is ErrParse = true := by
  obtain ⟨k, arg, _, _, _, hres⟩ := prepareCommandLine_loop_quote cw 0 args hq
  refine ⟨quoteError (0 + k) arg, ?_, by simp [quoteError, Error.Is, ErrParse]⟩
  rcases hl : prepareCommandLine.loop cw 0 args with ⟨e, args1⟩
  rw [hl] at hres
  dsimp only at hres
  subst hres
  simp [prepareCommandLine, hcmd, hl]

/-- C19: `prepareCommandLine` rewrites the caller's slice in place. For a command
that is not blank: when no argument has a double quote the call succeeds and
leaves every argument that contains whitespace in its double-quoted form and
every other argument as it was; when the first double quote is at index `k` the
call fails there, the elements before `k` are already in that form and the
elements from `k` on are unchanged; and so, when some argument contains
whitespace, a second call on the slice as the first one left it fails with
`ErrParse`. -/
theorem prepareCommandLine_rewrites_args (isBlank containsWhitespace : String → Bool)
    (cmd : String) (args : List String) (hcmd : isBlank cmd = false) :
    ((∀ a ∈ args, hasQuote a = false) →
      (prepareCommandLine isBlank containsWhitespace cmd args).1.2 = none ∧
      (prepareCommandLine isBlank containsWhitespace cmd args).2 =
        args.map fun a => if containsWhitespace a then "\"" ++ a ++ "\"" else a) ∧
    (∀ k arg, args[k]? = some arg → hasQuote arg = true →
      (∀ j < k, ∀ a, args[j]? = some a → hasQuote a = false) →
      (prepareCommandLine isBlank containsWhitespace cmd args).1 =
        ("", some (quoteError k arg)) ∧
      (prepareCommandLine isBlank containsWhitespace cmd args).2 =
        ((args.take k).map fun a => if containsWhitespace a then "\"" ++ a ++ "\"" else a)
          ++ args.drop k) ∧
    ((∃ a ∈ args, containsWhitespace a = true) →
      ∃ e, (prepareCommandLine isBlank containsWhitespace cmd
          (prepareCommandLine isBlank containsWhitespace cmd args).2).1 = ("", some e) ∧
        e.Is ErrParse = true) := by
  have hquoted : quoted containsWhitespace = fun a =>
      if containsWhitespace a then "\"" ++ a ++ "\"" else a := rfl
  have hok : (∀ a ∈ args, hasQuote a = false) →
      (prepareCommandLine isBlank containsWhitespace cmd args).1.2 = none ∧
      (prepareCommandLine isBlank containsWhitespace cmd args).2 =
        args.map (quoted containsWhitespace) := by
    intro hnq
    have hl := prepareCommandLine_loop_ok containsWhitespace 0 args hnq
    cases args with
    | nil => simp [prepareCommandLine, hcmd, prepareCommandLine.loop]
    | cons a rest => simp [prepareCommandLine, hcmd, hl]
  have hfail : ∀ k arg, args[k]? = some arg → hasQuote arg = true →
      (∀ j < k, ∀ a, args[j]? = some a → hasQuote a = false) →
      (prepareCommandLine isBlank containsWhitespace cmd args).1 =
        ("", some (quoteError k arg)) ∧
      (prepareCommandLine isBlank containsWhitespace cmd args).2 =
        (args.take k).map (quoted containsWhitespace) ++ args.drop k := by
    intro k arg hk hq hmin
    have hl := prepareCommandLine_loop_first_quote containsWhitespace 0 args k arg hk hq hmin
    rw [Nat.zero_add] at hl
    simp [prepareCommandLine, hcmd, hl]
  refine ⟨by rw [← hquoted]; exact hok, by rw [← hquoted]; exact hfail, ?_⟩
  rintro ⟨a, ha, hws⟩
  apply prepareCommandLine_quote_fails isBlank containsWhitespace cmd _ hcmd
  by_cases hnq : ∀ b ∈ args, hasQuote b = false
  · rw [(hok hnq).2]
    refine ⟨quoted containsWhitespace a, List.mem_map_of_mem _ ha, ?_⟩
    simp only [quoted, hws, ↓reduceIte]
    exact hasQuote_wrapped a
  · have hq : ∃ b ∈ args, hasQuote b = true := by
      by_contra hcon
      exact hnq fun b hb => by
        cases hb2 : hasQuote b
        · rfl
        · exact absurd ⟨b, hb, hb2⟩ hcon
    obtain ⟨k, arg, hk, hargq, hmin, _⟩ :=
      prepareCommandLine_loop_quote containsWhitespace 0 args hq
    rw [(hfail k arg hk hargq hmin).2]
    refine ⟨arg, List.mem_append_right _ ?_, hargq⟩
    have hlt : k < args.length := by
      by_contra hge
      rw [List.getElem?_eq_none (by omega)] at hk
      exact absurd hk (by simp)
    rw [List.getElem?_eq_getElem hlt] at hk
    have hmem : args[k] ∈ args.drop k := by
      rw [List.drop_eq_getElem_cons hlt]
      exact List.mem_cons_self _ _
    have : args[k] = arg := by simpa using hk
    rw [← this]; exact hmem

theorem prepareCommandLine_rewrites_args_witness :
    (fun s : String => s.toList.all Char.isWhitespace) "ls" = false ∧
    (prepareCommandLine (fun s => s.toList.all Char.isWhitespace)
        (fun s => s.toList.any Char.isWhitespace) "ls" ["-l", "my file"]).2 =
      ["-l", "\"my file\""] ∧
    ∃ e, (prepareCommandLine (fun s => s.toList.all Char.isWhitespace)
        (fun s => s.toList.any Char.isWhitespace) "ls"
        (prepareCommandLine (fun s => s.toList.all Char.isWhitespace)
          (fun s => s.toList.any Char.isWhitespace) "ls" ["-l", "my file"]).2).1 =
          ("", some e) ∧ e.Is ErrParse = true :=
  have h := prepareCommandLine_rewrites_args (fun s => s.toList.all Char.isWhitespace)
    (fun s => s.toList.any Char.isWhitespace) "ls" ["-l", "my file"] (by decide)
  ⟨by decide, (h.1 (by decide)).2.trans (by decide), h.2.2 ⟨"my file", by simp, by decide⟩⟩

/-! ## Closing the connection: dialDevice, NewSyncConn, Forward, DoForward -/

/-- Whenever `dialDevice` returns an error after `server.Dial` succeeded, it has
closed the connection exactly once, as its last call. -/
theorem dialDevice_error_closes (c : Device) (timeout : Int) (now : Time)
    (hdial : c.server.Dial.1 = none) (herr : (c.dialDevice timeout now).1.2 ≠ none) :
    closes (newCalls c.server (c.dialDevice timeout now).2) = 1 ∧
    ((newCalls c.server (c.dialDevice timeout now).2).getLast?).map Call.op = some .Close := by
  obtain ⟨⟨errs, status, trace, deadline⟩, desc, ts, tl⟩ := c
  iterate 6
    rcases errs with _ | ⟨_ | e, errs⟩ <;>
      (try (simp [Device.dialDevice, readStatusWithTimeout, Conn.Dial, Conn.SendMessage,
        Conn.Close, Conn.ReadStatus, Conn.SetReadDeadline, Conn.perform,
        Conn.getNextErrToReturn, newCalls, closes] at hdial herr ⊢; done))
  all_goals
    rcases errs with _ | ⟨_ | e1, errs⟩ <;>
      simp [Device.dialDevice, readStatusWithTimeout, Conn.Dial, Conn.SendMessage,
        Conn.Close, Conn.ReadStatus, Conn.SetReadDeadline, Conn.perform,
        Conn.getNextErrToReturn, newCalls, closes] at hdial herr ⊢

/-- C11 (the code at the failing inputs): on a device where the dial and the routing
succeed and the `sync:` send then fails, and on one where that send succeeds and
the status read then fails, `dialDevice` has succeeded and `NewSyncConn` returns
nil with the error without having performed any `Close`: the dialed connection
is left open. -/
theorem NewSyncConn_error_leaves_open :
    ((scriptedDevice [none, none, none, none, none, some (.other "broken pipe")]).dialDevice
        5 ⟨100⟩).1 = (true, none) ∧
    ((scriptedDevice [none, none, none, none, none, some (.other "broken pipe")]).NewSyncConn
        ⟨100⟩ ⟨200⟩).1 = (false, some (.other "broken pipe")) ∧
    closes ((scriptedDevice
        [none, none, none, none, none, some (.other "broken pipe")]).NewSyncConn
          ⟨100⟩ ⟨200⟩).2.Trace = 0 ∧
    ((scriptedDevice
        [none, none, none, none, none, none, none, some (.other "EOF")]).NewSyncConn
          ⟨100⟩ ⟨200⟩).1 = (false, some (.other "EOF")) ∧
    closes ((scriptedDevice
        [none, none, none, none, none, none, none, some (.other "EOF")]).NewSyncConn
          ⟨100⟩ ⟨200⟩).2.Trace = 0 := by
  decide

/-- `Forward` returns a nil error exactly when its three steps succeed. -/
theorem Forward_nil_iff (c : Device) (addr : String) (now1 now2 : Time) :
    (c.Forward addr now1 now2).1.2 = none ↔
      (c.dialDevice c.CmdTimeoutShort now1).1.2 = none ∧
      ((c.dialDevice c.CmdTimeoutShort now1).2.SendMessage addr).1 = none ∧
      (readStatusWithTimeout ((c.dialDevice c.CmdTimeoutShort now1).2.SendMessage addr).2
        addr c.CmdTimeoutShort now2).1.2 = none := by
  unfold Device.Forward
  rcases c.dialDevice c.CmdTimeoutShort now1 with ⟨⟨b, _ | e⟩, s1⟩
  · dsimp only
    rcases s1.SendMessage addr with ⟨_ | e, s2⟩
    · dsimp only
      rcases readStatusWithTimeout s2 addr c.CmdTimeoutShort now2 with ⟨⟨r, _ | e⟩, s3⟩ <;>
        simp [wrapClientError]
    · simp [wrapClientError]
  · simp [wrapClientError]

/-- The `Close` calls of `Forward`: none when it returns nil, one when it fails
after the dial has succeeded. -/
theorem Forward_closes (c : Device) (addr : String) (now1 now2 : Time) :
    ((c.Forward addr now1 now2).1.2 = none →
      (c.Forward addr now1 now2).1.1 = true ∧
      closes (newCalls c.server (c.Forward addr now1 now2).2) = 0) ∧
    ((c.dialDevice c.CmdTimeoutShort now1).1.2 = none →
      (c.Forward addr now1 now2).1.2 ≠ none →
      (c.Forward addr now1 now2).1.1 = false ∧
      closes (newCalls c.server (c.Forward addr now1 now2).2) = 1) := by
  obtain ⟨⟨errs, status, trace, deadline⟩, desc, ts, tl⟩ := c
  iterate 10
    rcases errs with _ | ⟨_ | e, errs⟩ <;>
      (try (simp [Device.Forward, Device.dialDevice, readStatusWithTimeout,
        Conn.Dial, Conn.SendMessage, Conn.Close, Conn.ReadStatus, Conn.SetReadDeadline,
        Conn.perform, Conn.getNextErrToReturn, wrapClientError, newCalls, closes]; done))
  all_goals
    rcases errs with _ | ⟨_ | e1, errs⟩ <;>
      simp [Device.Forward, Device.dialDevice, readStatusWithTimeout,
        Conn.Dial, Conn.SendMessage, Conn.Close, Conn.ReadStatus, Conn.SetReadDeadline,
        Conn.perform, Conn.getNextErrToReturn, wrapClientError, newCalls, closes]

/-- Whenever `server.Dial` gave a connection, `DoForward` performs exactly one
`Close`, as its last call. -/
theorem DoForward_closes (c : Device) (local_ remote : String) (noRebind : Bool)
    (now1 now2 : Time) (hdial : c.server.Dial.1 = none) :
    closes (newCalls c.server (c.DoForward local_ remote noRebind now1 now2).2) = 1 ∧
    ((newCalls c.server (c.DoForward local_ remote noRebind now1 now2).2).getLast?).map
      Call.op = some .Close := by
  obtain ⟨⟨errs, status, trace, deadline⟩, desc, ts, tl⟩ := c
  iterate 10
    rcases errs with _ | ⟨_ | e, errs⟩ <;>
      (try (simp [Device.DoForward, Device.dialDevice, readStatusWithTimeout,
        Conn.Dial, Conn.SendMessage, Conn.Close, Conn.ReadStatus, Conn.SetReadDeadline,
        Conn.perform, Conn.getNextErrToReturn, wrapClientError, newCalls, closes]
          at hdial ⊢; done))
  all_goals
    rcases errs with _ | ⟨_ | e1, errs⟩ <;>
      simp [Device.DoForward, Device.dialDevice, readStatusWithTimeout,
        Conn.Dial, Conn.SendMessage, Conn.Close, Conn.ReadStatus, Conn.SetReadDeadline,
        Conn.perform, Conn.getNextErrToReturn, wrapClientError, newCalls, closes] at hdial ⊢

/-- C12: `Forward` returns a nil error exactly when the dial, the send of `addr` and
the status read all succeed, and it then returns the connection without any
`Close` having been performed; when the dial has succeeded and the send or the
status read fails it returns a nil connection and a non-nil error after exactly
one `Close`. `DoForward`, whenever `server.Dial` gave it a connection, performs
exactly one `Close`, as its last call before returning. -/
theorem Forward_keeps_connection_open (c : Device) (addr local_ remote : String)
    (noRebind : Bool) (now1 now2 : Time) :
    ((c.Forward addr now1 now2).1.2 = none ↔
      (c.dialDevice c.CmdTimeoutShort now1).1.2 = none ∧
      ((c.dialDevice c.CmdTimeoutShort now1).2.SendMessage addr).1 = none ∧
      (readStatusWithTimeout ((c.dialDevice c.CmdTimeoutShort now1).2.SendMessage addr).2
        addr c.CmdTimeoutShort now2).1.2 = none) ∧
    ((c.Forward addr now1 now2).1.2 = none →
      (c.Forward addr now1 now2).1.1 = true ∧
      closes (newCalls c.server (c.Forward addr now1 now2).2) = 0) ∧
    ((c.dialDevice c.CmdTimeoutShort now1).1.2 = none →
      (c.Forward addr now1 now2).1.2 ≠ none →
      (c.Forward addr now1 now2).1.1 = false ∧
      closes (newCalls c.server (c.Forward addr now1 now2).2) = 1) ∧
    (c.server.Dial.1 = none →
      closes (newCalls c.server (c.DoForward local_ remote noRebind now1 now2).2) = 1 ∧
      ((newCalls c.server (c.DoForward local_ remote noRebind now1 now2).2).getLast?).map
        Call.op = some .Close) :=
  ⟨Forward_nil_iff c addr now1 now2, (Forward_closes c addr now1 now2).1,
    (Forward_closes c addr now1 now2).2, DoForward_closes c local_ remote noRebind now1 now2⟩

/-! ## DoForward: the request -/

/-- `DoForward` returns nil exactly when its three steps succeed. -/
theorem DoForward_nil_iff (c : Device) (local_ remote : String) (noRebind : Bool)
    (now1 now2 : Time) :
    (c.DoForward local_ remote noRebind now1 now2).1 = none ↔
      (c.dialDevice c.CmdTimeoutShort now1).1.2 = none ∧
      ((c.dialDevice c.CmdTimeoutShort now1).2.SendMessage
        (forwardCommand local_ remote noRebind)).1 = none ∧
      (readStatusWithTimeout ((c.dialDevice c.CmdTimeoutShort now1).2.SendMessage
        (forwardCommand local_ remote noRebind)).2
        (forwardCommand local_ remote noRebind) c.CmdTimeoutShort now2).1.2 = none := by
  unfold Device.DoForward
  rcases c.dialDevice c.CmdTimeoutShort now1 with ⟨⟨b, _ | e⟩, s1⟩
  · dsimp only
    rcases s1.SendMessage (forwardCommand local_ remote noRebind) with ⟨_ | e, s2⟩
    · dsimp only
      rcases readStatusWithTimeout s2 (forwardCommand local_ remote noRebind)
        c.CmdTimeoutShort now2 with ⟨⟨r, _ | e⟩, s3⟩ <;> simp [wrapClientError]
    · simp [wrapClientError]
  · simp [wrapClientError]

/-- The messages `DoForward` sends: the routing request, then its command. -/
theorem DoForward_messages (c : Device) (local_ remote : String) (noRebind : Bool)
    (now1 now2 : Time) :
    messages (newCalls c.server (c.DoForward local_ remote noRebind now1 now2).2) <+:
      ["host:" ++ c.descriptor.transportDescriptor, forwardCommand local_ remote noRebind] ∧
    ((c.dialDevice c.CmdTimeoutShort now1).1.2 = none →
      messages (newCalls c.server (c.DoForward local_ remote noRebind now1 now2).2) =
        ["host:" ++ c.descriptor.transportDescriptor,
          forwardCommand local_ remote noRebind]) := by
  obtain ⟨⟨errs, status, trace, deadline⟩, desc, ts, tl⟩ := c
  iterate 10
    rcases errs with _ | ⟨_ | e, errs⟩ <;>
      (try (simp [Device.DoForward, Device.dialDevice, readStatusWithTimeout,
        Conn.Dial, Conn.SendMessage, Conn.Close, Conn.ReadStatus, Conn.SetReadDeadline,
        Conn.perform, Conn.getNextErrToReturn, wrapClientError, newCalls, messages]; done))
  all_goals
    rcases errs with _ | ⟨_ | e1, errs⟩ <;>
      simp [Device.DoForward, Device.dialDevice, readStatusWithTimeout,
        Conn.Dial, Conn.SendMessage, Conn.Close, Conn.ReadStatus, Conn.SetReadDeadline,
        Conn.perform, Conn.getNextErrToReturn, wrapClientError, newCalls, messages]

/-- C14: the messages `DoForward` passes to `SendMessage` are a prefix of the routing
request followed by one command, and exactly these two once routing to the
device has succeeded; the command is `host:forward:norebind:<local>;<remote>`
when `noRebind` is set and `host:forward:<local>;<remote>` otherwise; and
`DoForward` returns nil exactly when the dial, the send of that command and the
status read that follows it all succeed. -/
theorem DoForward_request (c : Device) (local_ remote : String) (noRebind : Bool)
    (now1 now2 : Time) :
    messages (newCalls c.server (c.DoForward local_ remote noRebind now1 now2).2) <+:
      ["host:" ++ c.descriptor.transportDescriptor,
        if noRebind then "host:forward:norebind:" ++ local_ ++ ";" ++ remote
        else "host:forward:" ++ local_ ++ ";" ++ remote] ∧
    ((c.dialDevice c.CmdTimeoutShort now1).1.2 = none →
      messages (newCalls c.server (c.DoForward local_ remote noRebind now1 now2).2) =
        ["host:" ++ c.descriptor.transportDescriptor,
          if noRebind then "host:forward:norebind:" ++ local_ ++ ";" ++ remote
          else "host:forward:" ++ local_ ++ ";" ++ remote]) ∧
    ((c.DoForward local_ remote noRebind now1 now2).1 = none ↔
      (c.dialDevice c.CmdTimeoutShort now1).1.2 = none ∧
      ((c.dialDevice c.CmdTimeoutShort now1).2.SendMessage
        (if noRebind then "host:forward:norebind:" ++ local_ ++ ";" ++ remote
          else "host:forward:" ++ local_ ++ ";" ++ remote)).1 = none ∧
      (readStatusWithTimeout ((c.dialDevice c.CmdTimeoutShort now1).2.SendMessage
        (if noRebind then "host:forward:norebind:" ++ local_ ++ ";" ++ remote
          else "host:forward:" ++ local_ ++ ";" ++ remote)).2
        (if noRebind then "host:forward:norebind:" ++ local_ ++ ";" ++ remote
          else "host:forward:" ++ local_ ++ ";" ++ remote) c.CmdTimeoutShort now2).1.2
        = none) :=
  ⟨(DoForward_messages c local_ remote noRebind now1 now2).1,
    (DoForward_messages c local_ remote noRebind now1 now2).2,
    DoForward_nil_iff c local_ remote noRebind now1 now2⟩

/-! ## Wrapping of returned errors -/

/-- An error that wraps nothing is not the result of `wrapClientError`. -/
theorem other_not_wrappedForClient (c : Device) (text : String) :
    ¬ wrappedForClient c (.other text) := by
  rintro ⟨e, operation, h⟩
  simp [wrapClientError] at h

/-- C13 (the code at the failing input): on a device where `NewSyncConn` succeeds
and the sync connection's `Send` then fails, `OpenFileWriter` closes the
connection and returns the error of `Send` as it is; that error is not a result
of `wrapClientError`, so it carries neither the device nor the operation and
path. -/
theorem OpenFileWriter_error_not_wrapped :
    ((scriptedDevice [none, none, none, none, none, none, none, none, none,
        some (.other "broken pipe")]).NewSyncConn ⟨100⟩ ⟨200⟩).1 = (true, none) ∧
    ((scriptedDevice [none, none, none, none, none, none, none, none, none,
        some (.other "broken pipe")]).OpenFileWriter "/sdcard/a.txt" 420 ⟨0⟩ ⟨100⟩ ⟨200⟩).1 =
      (false, some (.other "broken pipe")) ∧
    ¬ wrappedForClient (scriptedDevice [none, none, none, none, none, none, none, none, none,
        some (.other "broken pipe")]) (.other "broken pipe") :=
  ⟨by decide, by decide, other_not_wrappedForClient _ _⟩

/-! ## Package wire: framing -/

/-- Every lowercase digit written for a value below 16 is read back as that value. -/
theorem hexValue_hexDigit : ∀ d, d < 16 → wire.hexValue (wire.hexDigit d) = some d := by
  decide

/-- The digits written for a value below 16 are lowercase hexadecimal digits. -/
theorem hexDigit_lowercase : ∀ d, d < 16 → wire.isLowerHex (wire.hexDigit d) = true := by
  decide

/-- The 4-digit header of a length that fits is read back as that length. -/
theorem parseHex_hexLength (n : Nat) (hn : n ≤ 0xFFFF) :
    wire.parseHex (wire.hexLength n) = some n := by
  have h3 := hexValue_hexDigit (n / 4096 % 16) (Nat.mod_lt _ (by decide))
  have h2 := hexValue_hexDigit (n / 256 % 16) (Nat.mod_lt _ (by decide))
  have h1 := hexValue_hexDigit (n / 16 % 16) (Nat.mod_lt _ (by decide))
  have h0 := hexValue_hexDigit (n % 16) (Nat.mod_lt _ (by decide))
  simp only [wire.parseHex, wire.hexLength, List.foldlM, h3, h2, h1, h0, Option.map_some',
    Option.bind_eq_bind, Option.some_bind, Option.pure_def, Option.some.injEq]
  omega

/-- Reading `n` bytes from a stream that starts with `n` bytes `pre`. -/
theorem readFull_append (pre rest : List Char) :
    wire.readFull (pre ++ rest) pre.length = (pre, rest) := by
  simp [wire.readFull]

/-- A length read on a stream that starts with a valid 4-digit header. -/
theorem readHexLength_header (hdr rest : List Char) (L : Nat) (hlen : hdr.length = 4)
    (hparse : wire.parseHex hdr = some L) :
    wire.readHexLength (hdr ++ rest) = ((L, none), rest) := by
  have h := readFull_append hdr rest
  rw [hlen] at h
  simp [wire.readHexLength, h, hlen, hparse]

/-- A message read on a stream that holds a valid header and all of its data. -/
theorem readMessage_complete (hdr data rest : List Char) (hlen : hdr.length = 4)
    (hparse : wire.parseHex hdr = some data.length) :
    wire.readMessage (hdr ++ (data ++ rest)) = ((some data, none), rest) := by
  simp [wire.readMessage, readHexLength_header hdr (data ++ rest) data.length hlen hparse,
    readFull_append]

/-- A message read on a stream that ends before all the data of a valid header. -/
theorem readMessage_short (hdr data : List Char) (L : Nat) (hlen : hdr.length = 4)
    (hparse : wire.parseHex hdr = some L) (hshort : data.length < L) :
    wire.readMessage (hdr ++ data) =
      ((some data, some (wire.errIncompleteMessage "message data" data.length L)), []) := by
  have hfull : wire.readFull data L = (data, []) := by
    simp [wire.readFull, List.take_of_length_le (Nat.le_of_lt hshort),
      List.drop_of_length_le (Nat.le_of_lt hshort)]
  simp [wire.readMessage, readHexLength_header hdr data L hlen hparse, hfull, hshort]

/-- The cases of `conn_test.go`, evaluated on the definitions above. -/
theorem conn_test_cases :
    wire.readStatusFailureAsError "OKAYd".toList "" = (("OKAY", none), "d".toList) ∧
    wire.readStatusFailureAsError "oka".toList "" =
      (("", some (.wrapf "error reading status for : " (wire.errIncompleteMessage "" 3 4) "")),
        []) ∧
    wire.readStatusFailureAsError "FAIL0000".toList "" =
      (("", some (.other "AdbError: request , server error: ")), []) ∧
    wire.readStatusFailureAsError "FAIL0004fail".toList "" =
      (("", some (.other "AdbError: request , server error: fail")), []) ∧
    wire.readMessage "0005hello".toList = ((some "hello".toList, none), []) ∧
    wire.readMessage "0005hellothere".toList = ((some "hello".toList, none), "there".toList) ∧
    wire.readMessage "0000".toList = ((some [], none), []) ∧
    wire.readMessage "0005hel".toList =
      ((some "hel".toList, some (wire.errIncompleteMessage "message data" 3 5)), []) ∧
    wire.readHexLength "000a".toList = ((10, none), []) ∧
    wire.readHexLength "aaa".toList =
      ((0, some (wire.errIncompleteMessage "length" 3 4)), []) ∧
    wire.readMessage [] = ((none, some ErrConnectionReset), []) ∧
    wire.SendMessage [] "hello".toList = (none, "0005hello".toList) ∧
    wire.SendMessage [] [] = (none, "0000".toList) := by
  refine ⟨?_, ?_, ?_, ?_, ?_, ?_, ?_, ?_, ?_, ?_, ?_, ?_, ?_⟩ <;> decide

/-- C15 (modelled from the spec): for a payload of at most `0xFFFF` bytes
`SendMessage` succeeds and appends to the connection exactly the 4-character
lowercase hexadecimal length of the payload followed by the payload, and
`readMessage` on those bytes, whatever follows them, returns the payload with a
nil error and leaves what follows unread (it consumes `4 + len(P)` bytes). -/
theorem SendMessage_readMessage_roundtrip (P out rest : List Char) (hfit : P.length ≤ 0xFFFF) :
    wire.SendMessage out P = (none, out ++ (wire.hexLength P.length ++ P)) ∧
    (wire.hexLength P.length).length = 4 ∧
    (∀ c ∈ wire.hexLength P.length, wire.isLowerHex c = true) ∧
    wire.parseHex (wire.hexLength P.length) = some P.length ∧
    wire.readMessage ((wire.SendMessage [] P).2 ++ rest) = ((some P, none), rest) ∧
    ((wire.SendMessage [] P).2 ++ rest).length = 4 + P.length + rest.length := by
  have hsend : ∀ o, wire.SendMessage o P = (none, o ++ (wire.hexLength P.length ++ P)) := by
    intro o
    simp [wire.SendMessage, hfit]
  have hparse := parseHex_hexLength P.length hfit
  refine ⟨hsend out, rfl, ?_, hparse, ?_, ?_⟩
  · intro c hc
    simp only [wire.hexLength, List.mem_cons, List.mem_singleton, List.not_mem_nil,
      or_false] at hc
    rcases hc with rfl | rfl | rfl | rfl <;>
      exact hexDigit_lowercase _ (Nat.mod_lt _ (by decide))
  · rw [hsend []]
    simp only [List.nil_append, List.append_assoc]
    exact readMessage_complete _ P rest rfl hparse
  · rw [hsend []]
    simp [wire.hexLength]
    omega

theorem SendMessage_readMessage_roundtrip_witness :
    "hello".toList.length ≤ 0xFFFF ∧
    wire.SendMessage [] "hello".toList = (none, "0005hello".toList) ∧
    wire.readMessage ((wire.SendMessage [] "hello".toList).2 ++ "there".toList) =
      ((some "hello".toList, none), "there".toList) :=
  have h := SendMessage_readMessage_roundtrip "hello".toList [] "there".toList (by decide)
  ⟨by decide, h.1.trans (by decide), h.2.2.2.2.1⟩

/-- C16 (modelled from the spec): on a stream that begins with the success token the
status read returns that token with a nil error and leaves everything after the
4 bytes unread; on a stream that begins with the failure token followed by a
well-formed length-prefixed message `m` it consumes exactly that message and
returns the error that carries the request and `m` (`AdbError: request <req>,
server error: <m>`); and when the read of the message after the failure token
fails, the error is `server returned error for <req>, but couldn't read the error
message` wrapping the read error, as for a message cut short. -/
theorem readStatusFailureAsError_cases (req : String) (rest : List Char) :
    wire.readStatusFailureAsError (StatusSuccess.toList ++ rest) req =
      ((StatusSuccess, none), rest) ∧
    (∀ hdr m : List Char, hdr.length = 4 → wire.parseHex hdr = some m.length →
      wire.readStatusFailureAsError (StatusFailure.toList ++ (hdr ++ (m ++ rest))) req =
        (("", some (.other
          ("AdbError: request " ++ req ++ ", server error: " ++ String.mk m))), rest)) ∧
    (∀ (s : List Char) (e : Error), (wire.readMessage s).1.2 = some e →
      wire.readStatusFailureAsError (StatusFailure.toList ++ s) req =
        (("", some (.wrapf
          ("server returned error for " ++ req ++ ", but couldn't read the error message: ")
          e "")), (wire.readMessage s).2)) ∧
    (∀ (hdr data : List Char) (L : Nat), hdr.length = 4 → wire.parseHex hdr = some L →
      data.length < L →
      wire.readStatusFailureAsError (StatusFailure.toList ++ (hdr ++ data)) req =
        (("", some (.wrapf
          ("server returned error for " ++ req ++ ", but couldn't read the error message: ")
          (wire.errIncompleteMessage "message data" data.length L) "")), [])) := by
  have hbad : ∀ (s : List Char) (e : Error), (wire.readMessage s).1.2 = some e →
      wire.readStatusFailureAsError (StatusFailure.toList ++ s) req =
        (("", some (.wrapf
          ("server returned error for " ++ req ++ ", but couldn't read the error message: ")
          e "")), (wire.readMessage s).2) := by
    intro s e he
    rcases hm : wire.readMessage s with ⟨⟨msg, err⟩, rest1⟩
    rw [hm] at he
    dsimp only at he
    subst he
    have hword : String.mk ['F', 'A', 'I', 'L'] = "FAIL" := by decide
    simp [wire.readStatusFailureAsError, wire.readFull, hm, StatusFailure, hword]
  refine ⟨?_, ?_, hbad, ?_⟩
  · have hword : ¬ String.mk ['O', 'K', 'A', 'Y'] = "FAIL" := by decide
    have hsame : String.mk ['O', 'K', 'A', 'Y'] = "OKAY" := by decide
    simp [wire.readStatusFailureAsError, wire.readFull, StatusSuccess, StatusFailure, hword,
      hsame]
  · intro hdr m hlen hparse
    have hword : String.mk ['F', 'A', 'I', 'L'] = "FAIL" := by decide
    simp [wire.readStatusFailureAsError, wire.readFull,
      readMessage_complete hdr m rest hlen hparse, wire.adbServerError, StatusFailure, hword]
  · intro hdr data L hlen hparse hshort
    have hm := readMessage_short hdr data L hlen hparse hshort
    have h := hbad (hdr ++ data) _ (by rw [hm])
    rw [h, hm]

/-- C17 (modelled from the spec): on a stream that holds a valid 4-hex-digit header
for the length `L` followed by only `g < L` bytes, `readMessage` fails with
exactly `errIncompleteMessage("message data", g, L)` and returns the `g` bytes
read as its message. -/
theorem readMessage_incomplete_data (hdr data : List Char) (L : Nat) (hlen : hdr.length = 4)
    (hparse : wire.parseHex hdr = some L) (hshort : data.length < L) :
    (wire.readMessage (hdr ++ data)).1 =
      (some data, some (wire.errIncompleteMessage "message data" data.length L)) ∧
    (wire.readMessage (hdr ++ data)).2 = [] := by
  rw [readMessage_short hdr data L hlen hparse hshort]
  exact ⟨rfl, rfl⟩

theorem readMessage_incomplete_data_witness :
    "0005".toList.length = 4 ∧ wire.parseHex "0005".toList = some 5 ∧ "hel".toList.length < 5 ∧
    (wire.readMessage "0005hel".toList).1 =
      (some "hel".toList, some (wire.errIncompleteMessage "message data" 3 5)) :=
  ⟨by decide, by decide, by decide,
    (readMessage_incomplete_data "0005".toList "hel".toList 5 (by decide) (by decide)
      (by decide)).1⟩

/-- C18 (modelled from the spec): `readMessage` on a stream that ends with no byte
available returns a nil message and an error that is `ErrConnectionReset`; a
length read on a stream that ends after `g` bytes, `1 ≤ g ≤ 3`, fails with
`errIncompleteMessage("length", g, 4)`, which is not `ErrConnectionReset` and
does not wrap it, and `readMessage` passes that error on with a nil message. -/
theorem header_truncation_classified (r : List Char) (h1 : 1 ≤ r.length) (h3 : r.length ≤ 3) :
    (∃ e, (wire.readMessage []).1 = (none, some e) ∧ e.Is ErrConnectionReset = true) ∧
    wire.readHexLength r = ((0, some (wire.errIncompleteMessage "length" r.length 4)), []) ∧
    wire.errIncompleteMessage "length" r.length 4 ≠ ErrConnectionReset ∧
    (wire.errIncompleteMessage "length" r.length 4).Is ErrConnectionReset = false ∧
    (wire.readMessage r).1 = (none, some (wire.errIncompleteMessage "length" r.length 4)) := by
  have hfull : wire.readFull r 4 = (r, []) := by
    simp [wire.readFull, List.take_of_length_le (show r.length ≤ 4 by omega),
      List.drop_of_length_le (show r.length ≤ 4 by omega)]
  have hlen : wire.readHexLength r =
      ((0, some (wire.errIncompleteMessage "length" r.length 4)), []) := by
    have hne : ¬ r.length = 0 := by omega
    have hlt : r.length < 4 := by omega
    simp [wire.readHexLength, hfull, hne, hlt]
  refine ⟨⟨ErrConnectionReset, by decide, by decide⟩, hlen, ?_, ?_, ?_⟩
  · simp [wire.errIncompleteMessage, ErrConnectionReset]
  · simp [wire.errIncompleteMessage, ErrConnectionReset, Error.Is]
  · simp [wire.readMessage, hlen]

theorem header_truncation_classified_witness :
    1 ≤ "aaa".toList.length ∧ "aaa".toList.length ≤ 3 ∧
    wire.readHexLength "aaa".toList =
      ((0, some (wire.errIncompleteMessage "length" 3 4)), []) :=
  ⟨by decide, by decide,
    (header_truncation_classified "aaa".toList (by decide) (by decide)).2.1⟩

/-! ## Device.State -/

/-- The function `strings.Contains` holds exactly when `substr` is a contiguous part
of `s`. -/
theorem strings_Contains_iff (s substr : String) :
    strings.Contains s substr = true ↔ substr.toList <:+: s.toList := by
  simp only [strings.Contains, List.any_eq_true, List.mem_tails, List.isPrefixOf_iff_prefix]
  constructor
  · rintro ⟨t, hsuf, hpre⟩
    exact List.infix_iff_prefix_suffix.mpr ⟨t, hpre, hsuf⟩
  · intro h
    obtain ⟨t, hpre, hsuf⟩ := List.infix_iff_prefix_suffix.mp h
    exact ⟨t, hsuf, hpre⟩

/-- The method `getAttribute` passes on the outcome of the round trip of the request
`<host-prefix>:<attr>`, with the empty string in place of the response when it
failed. -/
theorem getAttribute_eq {DeviceState : Type} (env : StateEnv DeviceState) (c : Device)
    (attr : String) :
    (c.getAttribute env attr).2 =
      (env.roundTripSingleResponse c.server (c.descriptor.hostPrefix ++ ":" ++ attr)).2 ∧
    (c.getAttribute env attr).1.2 =
      (env.roundTripSingleResponse c.server (c.descriptor.hostPrefix ++ ":" ++ attr)).1.2 ∧
    ((c.getAttribute env attr).1.2 = none →
      (c.getAttribute env attr).1.1 =
        (env.roundTripSingleResponse c.server (c.descriptor.hostPrefix ++ ":" ++ attr)).1.1) := by
  unfold Device.getAttribute
  rcases env.roundTripSingleResponse c.server (c.descriptor.hostPrefix ++ ":" ++ attr) with
    ⟨⟨resp, _ | e⟩, s1⟩ <;> simp

/-- C21: `Device.State` queries the attribute `get-state`. When the query fails with
an error whose text contains `unauthorized` the result is `(StateUnauthorized,
nil)`; when it fails with any other error the result is `StateInvalid` with a
non-nil error, the query error wrapped by `wrapClientError` (so `errors.Is`
still finds it); and when the query succeeds the result is the state that
`parseDeviceState` returns for the attribute, with its error passed through
`wrapClientError`, nil when it is nil. The server is left as the query left it. -/
theorem State_cases {DeviceState : Type} (env : StateEnv DeviceState) (c : Device) :
    (∀ e, (c.getAttribute env "get-state").1.2 = some e →
      strings.Contains (e.Error env.texts) "unauthorized" = true →
      (c.State env).1 = (env.StateUnauthorized, none)) ∧
    (∀ e, (c.getAttribute env "get-state").1.2 = some e →
      strings.Contains (e.Error env.texts) "unauthorized" = false →
      (c.State env).1 = (env.StateInvalid, wrapClientError (some e) c "State") ∧
      ∃ w, wrapClientError (some e) c "State" = some w ∧ w.Is e = true) ∧
    (∀ attr, (c.getAttribute env "get-state").1 = (attr, none) →
      (c.State env).1 =
        ((env.parseDeviceState attr).1, wrapClientError (env.parseDeviceState attr).2 c "State") ∧
      ((env.parseDeviceState attr).2 = none →
        (c.State env).1 = ((env.parseDeviceState attr).1, none))) ∧
    (c.State env).2 = (c.getAttribute env "get-state").2 := by
  rw [Device.State]
  rcases c.getAttribute env "get-state" with ⟨⟨attr, _ | err⟩, s1⟩
  · refine ⟨by simp, by simp, ?_, rfl⟩
    intro a ha
    have haa : attr = a := by simpa using ha
    subst haa
    dsimp only
    refine ⟨rfl, fun hnil => ?_⟩
    rw [hnil]
    rfl
  · refine ⟨?_, ?_, by simp, ?_⟩
    · intro e he hc
      have hee : err = e := by simpa using he
      subst hee
      simp [hc]
    · intro e he hc
      have hee : err = e := by simpa using he
      subst hee
      refine ⟨by simp [hc], _, rfl, ?_⟩
      have hself : err.Is err = true := by
        cases err <;> simp [Error.Is]
      simp [Error.Is, hself]
    · dsimp only
      split <;> rfl

/-- The three cases of `Device.State` on the sample declarations: an unauthorized
device, a device that is offline for the server, and a device that answers. -/
theorem State_examples :
    ((scriptedDevice [some (.other "device unauthorized.")]).State
        (sampleStateEnv "device")).1 = ("StateUnauthorized", none) ∧
    ((scriptedDevice [some (.other "device offline")]).State (sampleStateEnv "device")).1 =
      ("StateInvalid", some (.wrapf "doing State on any: " (.other "device offline") "")) ∧
    ((scriptedDevice []).State (sampleStateEnv "device")).1 = ("StateOnline", none) ∧
    ((scriptedDevice []).State (sampleStateEnv "device")).2.Trace =
      [⟨.SendMessage "host:get-state", none⟩] := by
  refine ⟨?_, ?_, ?_, ?_⟩ <;> decide


end Goadb
